import Mathlib

/-!
# Paxcounter duty-cycle coordinator (`src/main.cpp`)

A shallow embedding of the scan-cycle scheduler (`sniffer_loop`), the uplink
gate's wait loop, the reset policy (`reset_counters`, `reset_salt`), the LED
selection in `lorawan_loop`, the LED machine (`set_LED`, `switchLEDstate`,
`switchLED`) and the display machine (`updateDisplay`).

Conventions.
* C `int` values are `Int`; every `int` result is passed through `wrap_int`
  (two's complement, 32 bit).  `uint8_t`, `uint16_t` and `uint32_t` values are
  `Nat` reduced modulo `2^8`, `2^16`, `2^32` where the source assigns them.
* `/` and `%` on `int` are C's truncating operations (`Int.tdiv`, `Int.tmod`);
  a zero divisor is the outcome `Outcome.divByZero`.
* Calls into collaborators are recorded as `Effect`s, in program order;
  logging (`ESP_LOGx`) and `yield()` are not recorded.
* Constants that come from headers outside `main.cpp` (`WIFI_CHANNEL_MAX`,
  `MAXLORARETRY`, `DISPLAYREFRESH_MS`, the `OP_*` flags, the `COLOR_*` values)
  are parameters of the definitions that use them.
-/

namespace Paxcounter

/-! ## Machine integers -/

/-- Two's-complement reduction of a mathematical integer to a 32-bit `int`. -/
def wrap_int (x : Int) : Int :=
  (x + 2147483648) % 4294967296 - 2147483648

/-- Largest value of a 32-bit `int`. -/
def INT_MAX : Int := 2147483647

/-! ## Data model of the sniffer task -/

/-- The fields of `configData_t cfg` read by `sniffer_loop`, as the `int`
values they are promoted to in expressions. -/
structure configData_t where
  wifichancycle : Int
  wifiscancycle : Int
  countermode : Int
  deriving DecidableEq, Repr

/-- The variables `sniffer_loop` works on: its locals `nloop` and `lorawait`,
and the globals `channel`, `macs`, `macs_total`, `macs_wifi`, `macs_ble`,
`display_lora`, together with the salt owned by the hash collaborator. -/
structure SnifferState where
  nloop : Int
  lorawait : Int
  channel : Nat
  macs : Finset Nat
  macs_total : Nat
  macs_wifi : Nat
  macs_ble : Nat
  salt : Nat
  display_lora : String
  deriving DecidableEq

/-- Calls and reads that leave the sniffer task, in program order. -/
inductive Effect where
  /-- The call `wifi_sniffer_set_channel(channel)`. -/
  | set_channel (c : Nat)
  /-- The call `do_send(&sendjob)`; the flag tells whether the protocol
  engine accepted the job (`sniffer_loop` uses no result of the call). -/
  | do_send (accepted : Bool)
  /-- The call `reset_counters()`. -/
  | reset_counters
  /-- The call `reset_salt()`. -/
  | reset_salt
  /-- One evaluation of `LMIC.opmode & OP_TXRXPEND` in the `while` condition. -/
  | read_txrxpend (busy : Bool)
  /-- The call `esp_restart()`; it does not return. -/
  | esp_restart
  /-- The call `vTaskDelay(ms / portTICK_PERIOD_MS)`. -/
  | vTaskDelay (ms : Int)
  deriving DecidableEq, Repr

/-- How a piece of the loop body ends. -/
inductive Outcome where
  /-- Control reaches the end of the code in question. -/
  | running
  /-- The device was restarted by `esp_restart()`. -/
  | restarted
  /-- An integer division or modulo had a zero divisor. -/
  | divByZero
  /-- The wait loop is still polling when the fuel of the model is used up. -/
  | waiting
  deriving DecidableEq, Repr

/-- State, effects and outcome of a piece of the loop body. -/
structure TickResult where
  st : SnifferState
  trace : List Effect
  outcome : Outcome
  deriving DecidableEq

/-- What the protocol engine shows the uplink gate during one cycle
completion: whether `do_send` got its job accepted, and the value of
`LMIC.opmode & OP_TXRXPEND` at the i-th evaluation of the `while` condition
(counted from 0). -/
structure GateEnv where
  accepted : Bool
  busy : Nat → Bool

/-! ## Reset policy -/

/-- The function `reset_counters` of `main.cpp`. -/
def reset_counters (s : SnifferState) : SnifferState :=
  { s with macs := ∅, macs_total := 0, macs_wifi := 0, macs_ble := 0 }

/-- Modelled from the spec: `reset_salt()` is called by `main.cpp` but defined
in a file that is not part of the source tree.  The spec gives its contract:
the anonymization salt is a 16-bit value owned by the hash collaborator, and
rotating it yields a value that differs from the one before. -/
structure SaltRotation where
  rotate : Nat → Nat
  rotate_lt : ∀ s, rotate s < 65536
  rotate_ne : ∀ s, rotate s ≠ s

/-- Modelled from the spec: the effect of the absent `reset_salt()` on the
salt, through the rotation contract `SaltRotation`. -/
def reset_salt (R : SaltRotation) (s : SnifferState) : SnifferState :=
  { s with salt := R.rotate s.salt }

/-- A concrete rotation meeting the contract: the next 16-bit value. -/
def nextSalt : SaltRotation where
  rotate := fun s => (s + 1) % 65536
  rotate_lt := fun s => Nat.mod_lt _ (by decide)
  rotate_ne := fun s => by show (s + 1) % 65536 ≠ s; omega

/-! ## Uplink gate -/

/-- The first statements of the body of the wait loop: show "LoRa wait" on
the first pass (`if(!lorawait) sprintf(display_lora, "LoRa wait")`), then
`lorawait++`. -/
def lora_wait_count (s : SnifferState) : SnifferState :=
  let s1 := if s.lorawait = 0 then { s with display_lora := "LoRa wait" } else s
  { s1 with lorawait := wrap_int (s1.lorawait + 1) }

/-- The `while (LMIC.opmode & OP_TXRXPEND) { ... }` loop of `sniffer_loop`.
`i` is the number of evaluations of the condition made so far, `fuel` bounds
the number of further evaluations the model follows. -/
def lora_wait (MAXLORARETRY : Int) (busy : Nat → Bool) :
    Nat → Nat → SnifferState → TickResult
  | 0, _, s => ⟨s, [], Outcome.waiting⟩
  | fuel + 1, i, s =>
    if busy i then
      let s2 := lora_wait_count s
      if MAXLORARETRY = 0 then
        ⟨s2, [Effect.read_txrxpend true], Outcome.divByZero⟩
      else if Int.tmod s2.lorawait MAXLORARETRY = 0 then
        ⟨s2, [Effect.read_txrxpend true, Effect.esp_restart], Outcome.restarted⟩
      else
        let r := lora_wait MAXLORARETRY busy fuel (i + 1) s2
        ⟨r.st, Effect.read_txrxpend true :: Effect.vTaskDelay 1000 :: r.trace, r.outcome⟩
    else
      ⟨s, [Effect.read_txrxpend false], Outcome.running⟩

/-- The calls of the reset policy made when `cfg.countermode != 1`. -/
def policy_trace (cfg : configData_t) : List Effect :=
  if cfg.countermode ≠ 1 then [Effect.reset_counters, Effect.reset_salt] else []

/-- The body of `if (nloop >= ...) { ... }` in `sniffer_loop`: the cycle
completion. -/
def send_cycle (cfg : configData_t) (MAXLORARETRY : Int) (R : SaltRotation)
    (env : GateEnv) (fuel : Nat) (s : SnifferState) : TickResult :=
  let s1 := { s with nloop := 0, channel := 0 }
  let s2 := if cfg.countermode ≠ 1 then reset_salt R (reset_counters s1) else s1
  let s3 := { s2 with lorawait := 0 }
  let w := lora_wait MAXLORARETRY env.busy fuel 0 s3
  match w.outcome with
  | Outcome.running =>
    ⟨{ w.st with display_lora := "" },
      Effect.do_send env.accepted :: (policy_trace cfg ++ w.trace), Outcome.running⟩
  | o => ⟨w.st, Effect.do_send env.accepted :: (policy_trace cfg ++ w.trace), o⟩

/-! ## Scan-cycle scheduler -/

/-- The right-hand side of the cycle test,
`((100 / cfg.wifichancycle) * (cfg.wifiscancycle * 2)) + 1`, in `int`
arithmetic (evaluated only when `cfg.wifichancycle` is not zero). -/
def cycle_threshold (cfg : configData_t) : Int :=
  wrap_int (wrap_int (Int.tdiv 100 cfg.wifichancycle * wrap_int (cfg.wifiscancycle * 2)) + 1)

/-- One pass through the body of `while (1)` in `sniffer_loop`. -/
def sniffer_tick (cfg : configData_t) (WIFI_CHANNEL_MAX : Nat) (MAXLORARETRY : Int)
    (R : SaltRotation) (env : GateEnv) (fuel : Nat) (s : SnifferState) : TickResult :=
  let s1 := { s with nloop := wrap_int (s.nloop + 1) }
  if WIFI_CHANNEL_MAX = 0 then ⟨s1, [], Outcome.divByZero⟩
  else
    let s2 := { s1 with channel := ((s1.channel % WIFI_CHANNEL_MAX) + 1) % 256 }
    if cfg.wifichancycle = 0 then ⟨s2, [Effect.set_channel s2.channel], Outcome.divByZero⟩
    else if s2.nloop ≥ cycle_threshold cfg then
      let r := send_cycle cfg MAXLORARETRY R env fuel s2
      match r.outcome with
      | Outcome.running =>
        ⟨r.st, Effect.set_channel s2.channel ::
          (r.trace ++ [Effect.vTaskDelay (wrap_int (cfg.wifichancycle * 10))]), Outcome.running⟩
      | o => ⟨r.st, Effect.set_channel s2.channel :: r.trace, o⟩
    else
      ⟨s2, [Effect.set_channel s2.channel,
        Effect.vTaskDelay (wrap_int (cfg.wifichancycle * 10))], Outcome.running⟩

/-- The loop `while (1)` of `sniffer_loop`, followed for at most `n` ticks:
the results of the ticks made, in order.  Tick number `j` (from 0) sees the
protocol engine as `world j`; the loop ends with the first tick that does not
reach the end of the body. -/
def sniffer_loop (cfg : configData_t) (WIFI_CHANNEL_MAX : Nat) (MAXLORARETRY : Int)
    (R : SaltRotation) (world : Nat → GateEnv) (fuel : Nat) :
    Nat → Nat → SnifferState → List TickResult
  | 0, _, _ => []
  | n + 1, j, s =>
    let r := sniffer_tick cfg WIFI_CHANNEL_MAX MAXLORARETRY R (world j) fuel s
    match r.outcome with
    | Outcome.running =>
      r :: sniffer_loop cfg WIFI_CHANNEL_MAX MAXLORARETRY R world fuel n (j + 1) r.st
    | _ => [r]

/-- Whether a tick took the cycle-completion branch: it called `do_send`. -/
def TickResult.completed (r : TickResult) : Bool :=
  r.trace.any (fun e => match e with
    | Effect.do_send _ => true
    | _ => false)

/-- The channels handed to `wifi_sniffer_set_channel` by a tick, in order. -/
def TickResult.channels (r : TickResult) : List Nat :=
  r.trace.filterMap (fun e => match e with
    | Effect.set_channel c => some c
    | _ => none)

/-- The state at task start: `nloop = 0`, `lorawait = 0`, `channel = 0`, no
MAC seen yet, empty status line. -/
def init_state (salt : Nat) : SnifferState :=
  ⟨0, 0, 0, ∅, 0, 0, 0, salt, ""⟩

/-- A state one tick before the end of a 481-tick cycle, on channel 5, with one
MAC (hash 7) counted over wifi and salt 5. -/
def boundary_state : SnifferState :=
  ⟨480, 0, 5, {7}, 1, 1, 0, 5, ""⟩

/-- A protocol engine that is never busy and accepts every job. -/
def idle_env : GateEnv := ⟨true, fun _ => false⟩

/-- A protocol engine whose busy flag never clears and that rejects the job. -/
def stuck_env : GateEnv := ⟨false, fun _ => true⟩

/-- A protocol engine that rejects the job because a transmission is still
pending, and whose busy flag is read busy once and clear afterwards. -/
def pending_env : GateEnv := ⟨false, fun i => decide (i < 1)⟩

/-! ## LED machine -/

/-- The values of `enum states` used for `LEDState`. -/
inductive states where
  | LED_OFF
  | LED_ON
  deriving DecidableEq, Repr

/-- The globals of the LED machine: `color`, `LEDBlinkduration`,
`LEDInterval`, `LEDcount` and `LEDState`. -/
structure LEDMachine where
  color : Nat
  LEDBlinkduration : Nat
  LEDInterval : Nat
  LEDcount : Nat
  LEDState : states
  deriving DecidableEq, Repr

/-- The function `set_LED` of `main.cpp`; `LEDcount` is a `uint8_t`, the
arguments are taken as values of their parameter types. -/
def set_LED (set_color set_blinkduration set_interval set_count : Nat) (m : LEDMachine) :
    LEDMachine :=
  { m with
    color := set_color
    LEDBlinkduration := set_blinkduration
    LEDInterval := set_interval
    LEDcount := (set_count * 2) % 256
    LEDState := if set_count ≠ 0 then states.LED_ON else states.LED_OFF }

/-- The function `switchLEDstate` of `main.cpp`, at `currentMillis`. -/
def switchLEDstate (currentMillis : Nat) (m : LEDMachine) : LEDMachine :=
  if m.LEDcount = 0 then { m with LEDState := states.LED_OFF }
  else if m.LEDInterval ≠ 0 then
    { m with LEDState :=
        if currentMillis % m.LEDInterval < m.LEDBlinkduration then states.LED_ON
        else states.LED_OFF }
  else m

/-- The function `switchLED` of `main.cpp`.  Its variable `previousLEDState`
is an automatic variable declared without initialiser: the value the
comparison reads is not fixed by the program and is the argument
`previousLEDState` here, and the assignment `previousLEDState = LEDState`
is lost when the call returns.  When `LEDState` differs from the value read,
the LED is written and `LEDcount--` is done (a `uint8_t`).  The second
component is the state written to the LED, if any. -/
def switchLED (previousLEDState : states) (m : LEDMachine) : LEDMachine × Option states :=
  if m.LEDState ≠ previousLEDState then
    ({ m with LEDcount := (m.LEDcount + 255) % 256 }, some m.LEDState)
  else (m, none)

/-- The LED part of one pass of `loop()`, `switchLEDstate(); switchLED();`,
at `currentMillis`, with `previousLEDState` the value that `switchLED` reads
from its uninitialised variable. -/
def LED_tick (currentMillis : Nat) (previousLEDState : states) (m : LEDMachine) :
    LEDMachine :=
  (switchLED previousLEDState (switchLEDstate currentMillis m)).1

/-- The LED part of `loop()` over a sequence of passes, each given by its
timestamp and the value read from the uninitialised variable: the machine
after each pass. -/
def LED_run : List (Nat × states) → LEDMachine → List LEDMachine
  | [], _ => []
  | (t, p) :: ts, m => LED_tick t p m :: LED_run ts (LED_tick t p m)

/-- `LEDState` and `LEDcount` of a machine. -/
def LEDMachine.view (m : LEDMachine) : states × Nat :=
  (m.LEDState, m.LEDcount)

/-- The operating-mode flags of the protocol engine tested by `lorawan_loop`
(declared in the engine's header). -/
structure OpmodeFlags where
  OP_JOINING : Nat
  OP_TXDATA : Nat
  OP_REJOIN : Nat
  OP_TXRXPEND : Nat

/-- The colour constants passed to `set_LED` (declared in a header outside
`main.cpp`). -/
structure Colors where
  COLOR_NONE : Nat
  COLOR_YELLOW : Nat
  COLOR_BLUE : Nat
  COLOR_RED : Nat

/-- The flag values of the LMIC library: `OP_JOINING = 0x0004`,
`OP_TXDATA = 0x0008`, `OP_REJOIN = 0x0020`, `OP_TXRXPEND = 0x0080`. -/
def lmic_flags : OpmodeFlags := ⟨0x0004, 0x0008, 0x0020, 0x0080⟩

/-- Four distinct colour codes, for the examples. -/
def sample_colors : Colors := ⟨0, 1, 2, 3⟩

/-- The LED selection of one pass of `lorawan_loop`.  In the third condition
C's `==` binds tighter than `&`, so the source reads
`LMIC.opmode & ((OP_TXDATA | OP_TXRXPEND | OP_JOINING | OP_REJOIN) == 0)`. -/
def lorawan_loop_LED (F : OpmodeFlags) (K : Colors) (opmode : Nat) (m : LEDMachine) :
    LEDMachine :=
  if opmode &&& (F.OP_JOINING ||| F.OP_REJOIN) ≠ 0 then
    set_LED K.COLOR_YELLOW 20 200 5 m
  else if opmode &&& (F.OP_TXDATA ||| F.OP_TXRXPEND) ≠ 0 then
    set_LED K.COLOR_BLUE 10 500 3 m
  else if opmode &&&
      (if (F.OP_TXDATA ||| F.OP_TXRXPEND ||| F.OP_JOINING ||| F.OP_REJOIN) = 0 then 1 else 0)
      ≠ 0 then
    set_LED K.COLOR_RED 200 2000 5 m
  else
    set_LED K.COLOR_NONE 0 0 0 m

/-! ## Display machine -/

/-- State and effects of one call of `updateDisplay`: the global
`DisplayState` after the call, whether `refreshDisplay()` was called, and the
argument of `u8x8.setPowerSave` if it was called. -/
structure DisplayResult where
  DisplayState : Nat
  rendered : Bool
  powerSave : Option Bool
  deriving DecidableEq, Repr

/-- The function `updateDisplay` of `main.cpp` at `currentMillis`, with
`cfg.screenon = screenon`.  Its variable `previousDisplaymillis` is an
automatic `uint32_t` declared without initialiser: the value the comparison
reads is not fixed by the program and is the argument `previousDisplaymillis`
here, and `previousDisplaymillis += DISPLAYREFRESH_MS` is lost when the call
returns.  The subtraction is a `uint32_t` operation. -/
def updateDisplay (DISPLAYREFRESH_MS : Nat) (screenon : Nat) (currentMillis : Nat)
    (previousDisplaymillis : Nat) (DisplayState : Nat) : DisplayResult :=
  let due : Bool := decide
    ((currentMillis + 4294967296 - previousDisplaymillis) % 4294967296 ≥ DISPLAYREFRESH_MS)
  if DisplayState ≠ screenon then ⟨screenon, due, some (decide (screenon = 0))⟩
  else ⟨DisplayState, due, none⟩

/-- Effects that the wait loop of the uplink gate can produce. -/
def Effect.is_wait : Effect → Bool
  | Effect.read_txrxpend _ => true
  | Effect.esp_restart => true
  | Effect.vTaskDelay _ => true
  | _ => false

/-- Effects of the reset policy. -/
def Effect.is_reset : Effect → Bool
  | Effect.reset_counters => true
  | Effect.reset_salt => true
  | _ => false

/-- The effects of `k` passes through the wait loop that found the flag busy
and did not restart. -/
def busy_polls (k : Nat) : List Effect :=
  (List.replicate k [Effect.read_txrxpend true, Effect.vTaskDelay 1000]).flatten

/-- The state in which `send_cycle` enters the wait loop: counters of the
scheduler cleared, reset policy applied, `lorawait = 0`. -/
def gate_entry (cfg : configData_t) (R : SaltRotation) (s : SnifferState) : SnifferState :=
  let s1 := { s with nloop := 0, channel := 0 }
  let s2 := if cfg.countermode ≠ 1 then reset_salt R (reset_counters s1) else s1
  { s2 with lorawait := 0 }

/-- The state of `sniffer_tick` after `nloop++` and the channel rotation. -/
def rotated (WIFI_CHANNEL_MAX : Nat) (s : SnifferState) : SnifferState :=
  { s with nloop := wrap_int (s.nloop + 1),
           channel := ((s.channel % WIFI_CHANNEL_MAX) + 1) % 256 }

/-! ## Uptime counter -/

/-- The static variables `low32` and `high32` of `uptime()` (both `uint32_t`,
zero at program start). -/
structure UptimeState where
  low32 : Nat
  high32 : Nat
  deriving DecidableEq, Repr

/-- The function `uptime` of `main.cpp`, for the value `millis` returned by
`millis()`: the new state of the static variables and the `uint64_t` result
`(uint64_t) high32 << 32 | low32`. -/
def uptime (millis : Nat) (st : UptimeState) : UptimeState × Nat :=
  let new_low32 := millis % 4294967296
  let high32 := if new_low32 < st.low32 then (st.high32 + 1) % 4294967296 else st.high32
  (⟨new_low32, high32⟩, ((high32 <<< 32) % 18446744073709551616) ||| new_low32)

/-- The results of successive calls of `uptime()`, one call for each reading
of `millis()`. -/
def uptime_calls : List Nat → UptimeState → List Nat
  | [], _ => []
  | r :: rs, st => (uptime r st).2 :: uptime_calls rs (uptime r st).1

/-- The number of readings in a sequence that are strictly smaller than the
reading before them (`prev` for the first): the wraps of the 32-bit clock as
the claim counts them. -/
def descents : Nat → List Nat → Nat
  | _, [] => 0
  | prev, r :: rs => (if r < prev then 1 else 0) + descents r rs

/-! ## Arithmetic helpers -/

theorem wrap_int_of_range (x : Int) (h1 : -2147483648 ≤ x) (h2 : x ≤ 2147483647) :
    wrap_int x = x := by
  unfold wrap_int
  omega

theorem busy_polls_succ (k : Nat) :
    busy_polls (k + 1) =
      Effect.read_txrxpend true :: Effect.vTaskDelay 1000 :: busy_polls k := by
  simp [busy_polls, List.replicate_succ]

/-! ## The wait loop -/

theorem lora_wait_count_lorawait (s : SnifferState) :
    (lora_wait_count s).lorawait = wrap_int (s.lorawait + 1) := by
  unfold lora_wait_count
  split <;> rfl

theorem lora_wait_count_frame (s : SnifferState) :
    (lora_wait_count s).nloop = s.nloop ∧
    (lora_wait_count s).channel = s.channel ∧
    (lora_wait_count s).macs = s.macs ∧
    (lora_wait_count s).macs_total = s.macs_total ∧
    (lora_wait_count s).macs_wifi = s.macs_wifi ∧
    (lora_wait_count s).macs_ble = s.macs_ble ∧
    (lora_wait_count s).salt = s.salt := by
  unfold lora_wait_count
  split <;> simp

/-- The wait loop touches only `lorawait` and `display_lora`. -/
theorem lora_wait_frame (M : Int) (busy : Nat → Bool) :
    ∀ (fuel i : Nat) (s : SnifferState),
      (lora_wait M busy fuel i s).st.nloop = s.nloop ∧
      (lora_wait M busy fuel i s).st.channel = s.channel ∧
      (lora_wait M busy fuel i s).st.macs = s.macs ∧
      (lora_wait M busy fuel i s).st.macs_total = s.macs_total ∧
      (lora_wait M busy fuel i s).st.macs_wifi = s.macs_wifi ∧
      (lora_wait M busy fuel i s).st.macs_ble = s.macs_ble ∧
      (lora_wait M busy fuel i s).st.salt = s.salt := by
  intro fuel
  induction fuel with
  | zero => intro i s; simp [lora_wait]
  | succ fuel ih =>
    intro i s
    unfold lora_wait
    by_cases hb : busy i = true
    · simp only [hb, if_true]
      by_cases hM : M = 0
      · simp only [hM, if_true]
        exact lora_wait_count_frame s
      · simp only [hM, if_false]
        split
        · exact lora_wait_count_frame s
        · have h := ih (i + 1) (lora_wait_count s)
          have h2 := lora_wait_count_frame s
          simp only
          refine ⟨?_, ?_, ?_, ?_, ?_, ?_, ?_⟩
          · rw [h.1, h2.1]
          · rw [h.2.1, h2.2.1]
          · rw [h.2.2.1, h2.2.2.1]
          · rw [h.2.2.2.1, h2.2.2.2.1]
          · rw [h.2.2.2.2.1, h2.2.2.2.2.1]
          · rw [h.2.2.2.2.2.1, h2.2.2.2.2.2.1]
          · rw [h.2.2.2.2.2.2, h2.2.2.2.2.2.2]
    · simp [hb]

/-- Every effect of the wait loop is a read of the flag, a delay or the restart. -/
theorem lora_wait_trace_is_wait (M : Int) (busy : Nat → Bool) :
    ∀ (fuel i : Nat) (s : SnifferState),
      ∀ e ∈ (lora_wait M busy fuel i s).trace, e.is_wait = true := by
  intro fuel
  induction fuel with
  | zero => intro i s; simp [lora_wait]
  | succ fuel ih =>
    intro i s e
    unfold lora_wait
    by_cases hb : busy i = true
    · simp only [hb, if_true]
      by_cases hM : M = 0
      · simp only [hM, if_true]
        intro he
        simp only [List.mem_singleton] at he
        subst he; rfl
      · simp only [hM, if_false]
        split
        · intro he
          simp only [List.mem_cons, List.mem_singleton, List.not_mem_nil, or_false] at he
          rcases he with rfl | rfl <;> rfl
        · intro he
          simp only [List.mem_cons] at he
          rcases he with rfl | rfl | he
          · rfl
          · rfl
          · exact ih _ _ e he
    · simp only [hb]
      intro he
      simp at he
      subst he; rfl

theorem lora_wait_succ (M : Int) (busy : Nat → Bool) (fuel i : Nat) (s : SnifferState) :
    lora_wait M busy (fuel + 1) i s =
      if busy i then
        if M = 0 then
          ⟨lora_wait_count s, [Effect.read_txrxpend true], Outcome.divByZero⟩
        else if Int.tmod (lora_wait_count s).lorawait M = 0 then
          ⟨lora_wait_count s, [Effect.read_txrxpend true, Effect.esp_restart],
            Outcome.restarted⟩
        else
          ⟨(lora_wait M busy fuel (i + 1) (lora_wait_count s)).st,
            Effect.read_txrxpend true :: Effect.vTaskDelay 1000 ::
              (lora_wait M busy fuel (i + 1) (lora_wait_count s)).trace,
            (lora_wait M busy fuel (i + 1) (lora_wait_count s)).outcome⟩
      else
        ⟨s, [Effect.read_txrxpend false], Outcome.running⟩ := rfl

/-- While the flag is busy and the retry counter stays below `MAXLORARETRY`,
the loop keeps polling: `k` busy polls are `k` read/delay pairs, after which
the loop goes on from a state whose counter went up by `k`. -/
theorem lora_wait_busy_run (M : Int) (busy : Nat → Bool) (hMax : M ≤ 2147483647) :
    ∀ (k fuel i : Nat) (s : SnifferState), 0 ≤ s.lorawait → s.lorawait + k < M →
      (∀ j, j < k → busy (i + j) = true) →
      ∃ s2 : SnifferState, s2.lorawait = s.lorawait + k ∧
        lora_wait M busy (fuel + k) i s =
          ⟨(lora_wait M busy fuel (i + k) s2).st,
            busy_polls k ++ (lora_wait M busy fuel (i + k) s2).trace,
            (lora_wait M busy fuel (i + k) s2).outcome⟩ := by
  intro k
  induction k with
  | zero =>
    intro fuel i s _ _ _
    exact ⟨s, by simp, by simp [busy_polls]⟩
  | succ k ih =>
    intro fuel i s h0 hlt hb
    have hb0 : busy i = true := by simpa using hb 0 (Nat.succ_pos k)
    have hcast : ((k + 1 : Nat) : Int) = (k : Int) + 1 := by push_cast; rfl
    rw [hcast] at hlt
    have hk0 : (0 : Int) ≤ (k : Int) := Int.ofNat_nonneg k
    have hlw : (lora_wait_count s).lorawait = s.lorawait + 1 := by
      rw [lora_wait_count_lorawait]
      exact wrap_int_of_range _ (by omega) (by omega)
    have hM0 : M ≠ 0 := by omega
    have hmod : ¬ Int.tmod (lora_wait_count s).lorawait M = 0 := by
      rw [hlw, Int.tmod_eq_of_lt (by omega) (by omega)]
      omega
    obtain ⟨s2, hs2, heq⟩ := ih fuel (i + 1) (lora_wait_count s) (by omega) (by omega)
      (fun j hj => by
        have := hb (j + 1) (by omega)
        rwa [show i + (j + 1) = i + 1 + j by omega] at this)
    refine ⟨s2, by rw [hs2, hlw, hcast]; ring, ?_⟩
    have hidx : i + (k + 1) = i + 1 + k := by omega
    rw [show fuel + (k + 1) = (fuel + k) + 1 by omega]
    rw [lora_wait_succ]
    simp only [hb0, if_true, hM0, if_false, hmod]
    rw [heq, hidx, busy_polls_succ]
    rfl

/-- The flag is busy on `k` polls, `k < MAXLORARETRY`, then clear: the loop
exits after `k + 1` reads, without restart. -/
theorem lora_wait_clears (M : Int) (busy : Nat → Bool) (hMax : M ≤ 2147483647)
    (k fuel : Nat) (s : SnifferState) (hs : s.lorawait = 0) (hk : (k : Int) < M)
    (hfuel : k < fuel) (hbusy : ∀ j, j < k → busy j = true) (hclear : busy k = false) :
    (lora_wait M busy fuel 0 s).outcome = Outcome.running ∧
    (lora_wait M busy fuel 0 s).trace = busy_polls k ++ [Effect.read_txrxpend false] := by
  obtain ⟨f, rfl⟩ : ∃ f, fuel = (f + 1) + k := ⟨fuel - k - 1, by omega⟩
  obtain ⟨s2, _, heq⟩ := lora_wait_busy_run M busy hMax k (f + 1) 0 s (by omega) (by omega)
    (fun j hj => by simpa using hbusy j hj)
  rw [heq]
  simp only [Nat.zero_add]
  rw [lora_wait_succ]
  simp [hclear]

/-- The flag is busy on the first `MAXLORARETRY` polls: the loop restarts the
device right after read number `MAXLORARETRY`. -/
theorem lora_wait_stuck (M : Nat) (busy : Nat → Bool) (hM : 1 ≤ M)
    (hMax : (M : Int) ≤ 2147483647)
    (fuel : Nat) (s : SnifferState) (hs : s.lorawait = 0)
    (hfuel : M ≤ fuel) (hbusy : ∀ j, j < M → busy j = true) :
    (lora_wait M busy fuel 0 s).outcome = Outcome.restarted ∧
    (lora_wait M busy fuel 0 s).trace =
      busy_polls (M - 1) ++ [Effect.read_txrxpend true, Effect.esp_restart] := by
  obtain ⟨f, rfl⟩ : ∃ f, fuel = (f + 1) + (M - 1) := ⟨fuel - M, by omega⟩
  have hcast : ((M - 1 : Nat) : Int) = (M : Int) - 1 := by omega
  obtain ⟨s2, hs2, heq⟩ := lora_wait_busy_run M busy hMax (M - 1) (f + 1) 0 s (by omega)
    (by omega) (fun j hj => by simpa using hbusy j (by omega))
  rw [heq]
  simp only [Nat.zero_add]
  have hb : busy (M - 1) = true := hbusy (M - 1) (by omega)
  have hlw : (lora_wait_count s2).lorawait = (M : Int) := by
    rw [lora_wait_count_lorawait, hs2, hs, hcast]
    rw [wrap_int_of_range _ (by omega) (by omega)]
    ring
  have hM0 : (M : Int) ≠ 0 := by omega
  rw [lora_wait_succ]
  simp [hb, hM0, hlw]

/-! ## The cycle completion and the tick -/

theorem gate_entry_fields (cfg : configData_t) (R : SaltRotation) (s : SnifferState) :
    (gate_entry cfg R s).nloop = 0 ∧ (gate_entry cfg R s).channel = 0 ∧
    (gate_entry cfg R s).lorawait = 0 ∧
    (gate_entry cfg R s).macs = (if cfg.countermode ≠ 1 then ∅ else s.macs) ∧
    (gate_entry cfg R s).macs_total = (if cfg.countermode ≠ 1 then 0 else s.macs_total) ∧
    (gate_entry cfg R s).macs_wifi = (if cfg.countermode ≠ 1 then 0 else s.macs_wifi) ∧
    (gate_entry cfg R s).macs_ble = (if cfg.countermode ≠ 1 then 0 else s.macs_ble) ∧
    (gate_entry cfg R s).salt = (if cfg.countermode ≠ 1 then R.rotate s.salt else s.salt) := by
  unfold gate_entry
  by_cases h : cfg.countermode = 1 <;> simp [h, reset_salt, reset_counters]

theorem send_cycle_spec (cfg : configData_t) (M : Int) (R : SaltRotation) (env : GateEnv)
    (fuel : Nat) (s : SnifferState) :
    (send_cycle cfg M R env fuel s).outcome =
      (lora_wait M env.busy fuel 0 (gate_entry cfg R s)).outcome ∧
    (send_cycle cfg M R env fuel s).trace =
      Effect.do_send env.accepted ::
        (policy_trace cfg ++ (lora_wait M env.busy fuel 0 (gate_entry cfg R s)).trace) ∧
    (send_cycle cfg M R env fuel s).st.nloop = 0 ∧
    (send_cycle cfg M R env fuel s).st.channel = 0 ∧
    (send_cycle cfg M R env fuel s).st.macs = (gate_entry cfg R s).macs ∧
    (send_cycle cfg M R env fuel s).st.macs_total = (gate_entry cfg R s).macs_total ∧
    (send_cycle cfg M R env fuel s).st.macs_wifi = (gate_entry cfg R s).macs_wifi ∧
    (send_cycle cfg M R env fuel s).st.macs_ble = (gate_entry cfg R s).macs_ble ∧
    (send_cycle cfg M R env fuel s).st.salt = (gate_entry cfg R s).salt := by
  have hf := lora_wait_frame M env.busy fuel 0 (gate_entry cfg R s)
  have hg := gate_entry_fields cfg R s
  obtain ⟨f1, f2, f3, f4, f5, f6, f7⟩ := hf
  rw [hg.1] at f1
  rw [hg.2.1] at f2
  have hunf : send_cycle cfg M R env fuel s =
      match (lora_wait M env.busy fuel 0 (gate_entry cfg R s)).outcome with
      | Outcome.running =>
        ⟨{ (lora_wait M env.busy fuel 0 (gate_entry cfg R s)).st with display_lora := "" },
          Effect.do_send env.accepted ::
            (policy_trace cfg ++ (lora_wait M env.busy fuel 0 (gate_entry cfg R s)).trace),
          Outcome.running⟩
      | o => ⟨(lora_wait M env.busy fuel 0 (gate_entry cfg R s)).st,
          Effect.do_send env.accepted ::
            (policy_trace cfg ++ (lora_wait M env.busy fuel 0 (gate_entry cfg R s)).trace), o⟩ :=
    rfl
  rw [hunf]
  cases hw : (lora_wait M env.busy fuel 0 (gate_entry cfg R s)).outcome <;>
    simp [f1, f2, f3, f4, f5, f6, f7]

/-- A tick below the threshold: rotate the channel, delay, go on. -/
theorem sniffer_tick_below (cfg : configData_t) (N : Nat) (M : Int) (R : SaltRotation)
    (env : GateEnv) (fuel : Nat) (s : SnifferState) (hN : N ≠ 0)
    (hC : cfg.wifichancycle ≠ 0) (hlt : wrap_int (s.nloop + 1) < cycle_threshold cfg) :
    sniffer_tick cfg N M R env fuel s =
      ⟨rotated N s, [Effect.set_channel (rotated N s).channel,
        Effect.vTaskDelay (wrap_int (cfg.wifichancycle * 10))], Outcome.running⟩ := by
  unfold sniffer_tick
  have h : ¬ (wrap_int (s.nloop + 1) ≥ cycle_threshold cfg) := by omega
  simp [hN, hC, h, rotated]

/-- A tick that reaches the threshold: rotate the channel, complete the cycle. -/
theorem sniffer_tick_reached (cfg : configData_t) (N : Nat) (M : Int) (R : SaltRotation)
    (env : GateEnv) (fuel : Nat) (s : SnifferState) (hN : N ≠ 0)
    (hC : cfg.wifichancycle ≠ 0) (hge : cycle_threshold cfg ≤ wrap_int (s.nloop + 1)) :
    (sniffer_tick cfg N M R env fuel s).outcome =
      (lora_wait M env.busy fuel 0 (gate_entry cfg R (rotated N s))).outcome ∧
    (sniffer_tick cfg N M R env fuel s).trace =
      Effect.set_channel (rotated N s).channel :: Effect.do_send env.accepted ::
        (policy_trace cfg ++ ((lora_wait M env.busy fuel 0 (gate_entry cfg R (rotated N s))).trace ++
          (if (lora_wait M env.busy fuel 0 (gate_entry cfg R (rotated N s))).outcome
              = Outcome.running
            then [Effect.vTaskDelay (wrap_int (cfg.wifichancycle * 10))] else []))) ∧
    (sniffer_tick cfg N M R env fuel s).st.nloop = 0 ∧
    (sniffer_tick cfg N M R env fuel s).st.channel = 0 ∧
    (sniffer_tick cfg N M R env fuel s).st.macs = (gate_entry cfg R (rotated N s)).macs ∧
    (sniffer_tick cfg N M R env fuel s).st.macs_total =
      (gate_entry cfg R (rotated N s)).macs_total ∧
    (sniffer_tick cfg N M R env fuel s).st.macs_wifi =
      (gate_entry cfg R (rotated N s)).macs_wifi ∧
    (sniffer_tick cfg N M R env fuel s).st.macs_ble =
      (gate_entry cfg R (rotated N s)).macs_ble ∧
    (sniffer_tick cfg N M R env fuel s).st.salt = (gate_entry cfg R (rotated N s)).salt := by
  obtain ⟨g1, g2, g3, g4, g5, g6, g7, g8, g9⟩ := send_cycle_spec cfg M R env fuel (rotated N s)
  have hunf : sniffer_tick cfg N M R env fuel s =
      match (send_cycle cfg M R env fuel (rotated N s)).outcome with
      | Outcome.running =>
        ⟨(send_cycle cfg M R env fuel (rotated N s)).st,
          Effect.set_channel (rotated N s).channel ::
            ((send_cycle cfg M R env fuel (rotated N s)).trace ++
              [Effect.vTaskDelay (wrap_int (cfg.wifichancycle * 10))]), Outcome.running⟩
      | o => ⟨(send_cycle cfg M R env fuel (rotated N s)).st,
          Effect.set_channel (rotated N s).channel ::
            (send_cycle cfg M R env fuel (rotated N s)).trace, o⟩ := by
    unfold sniffer_tick
    have h : wrap_int (s.nloop + 1) ≥ cycle_threshold cfg := hge
    simp only [hN, if_false, hC, h, if_true]
    rfl
  rw [hunf, ← g1]
  cases hw : (send_cycle cfg M R env fuel (rotated N s)).outcome <;>
    simp [g2, g3, g4, g5, g6, g7, g8, g9]

/-- Without `int` overflow the threshold of the cycle test is
`floor(100/C) * (S*2) + 1`. -/
theorem cycle_threshold_eq (C S : Nat) (mode : Int)
    (hfit : (100 / C) * (S * 2) + 1 ≤ 2147483647) :
    cycle_threshold ⟨C, S, mode⟩ = (((100 / C) * (S * 2) + 1 : Nat) : Int) := by
  unfold cycle_threshold
  have hdiv : Int.tdiv 100 (C : Int) = ((100 / C : Nat) : Int) := by
    have := Int.ofNat_tdiv 100 C
    simpa using this.symm
  simp only [hdiv]
  rcases Nat.eq_zero_or_pos (100 / C) with h0 | hpos
  · simp [h0, wrap_int]
  · have hS : S * 2 ≤ (100 / C) * (S * 2) := Nat.le_mul_of_pos_left _ hpos
    have hw1 : wrap_int ((S : Int) * 2) = ((S * 2 : Nat) : Int) := by
      rw [wrap_int_of_range _ (by omega) (by omega)]
      push_cast; rfl
    rw [hw1]
    have hprod : ((100 / C : Nat) : Int) * ((S * 2 : Nat) : Int)
        = (((100 / C) * (S * 2) : Nat) : Int) := by push_cast; rfl
    rw [hprod]
    have hin : wrap_int (((100 / C) * (S * 2) : Nat) : Int)
        = (((100 / C) * (S * 2) : Nat) : Int) :=
      wrap_int_of_range _ (by omega) (by omega)
    rw [hin, wrap_int_of_range _ (by omega) (by omega)]
    push_cast; rfl

theorem sniffer_loop_succ (cfg : configData_t) (N : Nat) (M : Int) (R : SaltRotation)
    (world : Nat → GateEnv) (fuel n j : Nat) (s : SnifferState) :
    sniffer_loop cfg N M R world fuel (n + 1) j s =
      match (sniffer_tick cfg N M R (world j) fuel s).outcome with
      | Outcome.running =>
        sniffer_tick cfg N M R (world j) fuel s ::
          sniffer_loop cfg N M R world fuel n (j + 1) (sniffer_tick cfg N M R (world j) fuel s).st
      | _ => [sniffer_tick cfg N M R (world j) fuel s] := rfl

/-- The first tick of a loop that makes at least one tick. -/
theorem sniffer_loop_head (cfg : configData_t) (N : Nat) (M : Int) (R : SaltRotation)
    (world : Nat → GateEnv) (fuel n j : Nat) (s : SnifferState) (r : TickResult)
    (h : (sniffer_loop cfg N M R world fuel n j s)[0]? = some r) :
    r = sniffer_tick cfg N M R (world j) fuel s := by
  cases n with
  | zero => simp [sniffer_loop] at h
  | succ n =>
    rw [sniffer_loop_succ] at h
    split at h <;> simpa using h.symm

/-- The later ticks of a loop are the ticks of the loop that starts in the
state left by the first tick. -/
theorem sniffer_loop_tail (cfg : configData_t) (N : Nat) (M : Int) (R : SaltRotation)
    (world : Nat → GateEnv) (fuel n j k : Nat) (s : SnifferState) (r : TickResult)
    (h : (sniffer_loop cfg N M R world fuel (n + 1) j s)[k + 1]? = some r) :
    (sniffer_tick cfg N M R (world j) fuel s).outcome = Outcome.running ∧
    (sniffer_loop cfg N M R world fuel n (j + 1)
      (sniffer_tick cfg N M R (world j) fuel s).st)[k]? = some r := by
  rw [sniffer_loop_succ] at h
  split at h
  · rename_i hrun
    exact ⟨hrun, by simpa using h⟩
  · simp at h

theorem completed_below (cfg : configData_t) (N : Nat) (M : Int) (R : SaltRotation)
    (env : GateEnv) (fuel : Nat) (s : SnifferState) (hN : N ≠ 0)
    (hC : cfg.wifichancycle ≠ 0) (hlt : wrap_int (s.nloop + 1) < cycle_threshold cfg) :
    (sniffer_tick cfg N M R env fuel s).completed = false := by
  rw [sniffer_tick_below cfg N M R env fuel s hN hC hlt]
  simp [TickResult.completed]

theorem completed_reached (cfg : configData_t) (N : Nat) (M : Int) (R : SaltRotation)
    (env : GateEnv) (fuel : Nat) (s : SnifferState) (hN : N ≠ 0)
    (hC : cfg.wifichancycle ≠ 0) (hge : cycle_threshold cfg ≤ wrap_int (s.nloop + 1)) :
    (sniffer_tick cfg N M R env fuel s).completed = true := by
  have h := (sniffer_tick_reached cfg N M R env fuel s hN hC hge).2.1
  simp [TickResult.completed, h]

/-- If the busy flag is seen clear on some poll before poll `MAXLORARETRY`
(and within the fuel), the tick reaches the end of the loop body. -/
theorem sniffer_tick_running (cfg : configData_t) (N : Nat) (M : Int) (R : SaltRotation)
    (env : GateEnv) (fuel : Nat) (s : SnifferState) (hN : N ≠ 0)
    (hC : cfg.wifichancycle ≠ 0) (hMax : M ≤ 2147483647)
    (hclear : ∃ k : Nat, (k : Int) < M ∧ k < fuel ∧ env.busy k = false) :
    (sniffer_tick cfg N M R env fuel s).outcome = Outcome.running := by
  by_cases hlt : wrap_int (s.nloop + 1) < cycle_threshold cfg
  · rw [sniffer_tick_below cfg N M R env fuel s hN hC hlt]
  · rw [(sniffer_tick_reached cfg N M R env fuel s hN hC (by omega)).1]
    have hex : ∃ k : Nat, env.busy k = false := by
      obtain ⟨k, _, _, hk⟩ := hclear
      exact ⟨k, hk⟩
    obtain ⟨k, hkM, hkf, _⟩ := hclear
    have hmin : Nat.find hex ≤ k := Nat.find_min' hex (by assumption)
    have hfirst : env.busy (Nat.find hex) = false := Nat.find_spec hex
    have hbefore : ∀ j, j < Nat.find hex → env.busy j = true := by
      intro j hj
      have := Nat.find_min hex hj
      simpa using this
    exact (lora_wait_clears M env.busy hMax (Nat.find hex) fuel _
      (gate_entry_fields cfg R _).2.2.1 (by omega) (by omega) hbefore hfirst).1

/-- With a flag that clears in time at every cycle completion the loop makes
all `n` ticks. -/
theorem sniffer_loop_length (cfg : configData_t) (N : Nat) (M : Int) (R : SaltRotation)
    (world : Nat → GateEnv) (fuel : Nat) (hN : N ≠ 0)
    (hC : cfg.wifichancycle ≠ 0) (hMax : M ≤ 2147483647)
    (hclear : ∀ j, ∃ k : Nat, (k : Int) < M ∧ k < fuel ∧ (world j).busy k = false) :
    ∀ (n j : Nat) (s : SnifferState),
      (sniffer_loop cfg N M R world fuel n j s).length = n := by
  intro n
  induction n with
  | zero => intro j s; rfl
  | succ n ih =>
    intro j s
    rw [sniffer_loop_succ, sniffer_tick_running cfg N M R (world j) fuel s hN hC hMax (hclear j)]
    simp [ih]

/-- The loop started with tick counter `m` below the threshold `T`: the tick
with index `k` completes the cycle exactly when `T` divides `m + k + 1`. -/
theorem sniffer_loop_cycle_from (C S : Nat) (mode : Int) (N : Nat) (M : Int) (R : SaltRotation)
    (world : Nat → GateEnv) (fuel : Nat) (hC : 1 ≤ C)
    (hfit : (100 / C) * (S * 2) + 1 ≤ 2147483647) (hN : 1 ≤ N) :
    ∀ (n j : Nat) (s : SnifferState) (m : Nat), s.nloop = (m : Int) →
      m < (100 / C) * (S * 2) + 1 →
      min n ((100 / C) * (S * 2) + 1 - m) ≤
        (sniffer_loop ⟨C, S, mode⟩ N M R world fuel n j s).length ∧
      ∀ (k : Nat) (r : TickResult),
        (sniffer_loop ⟨C, S, mode⟩ N M R world fuel n j s)[k]? = some r →
        (r.completed = true ↔ (100 / C) * (S * 2) + 1 ∣ m + k + 1) ∧
        (r.completed = true → r.st.nloop = 0 ∧ r.st.channel = 0) := by
  have hthr := cycle_threshold_eq C S mode hfit
  have hN0 : N ≠ 0 := by omega
  have hC0 : (⟨C, S, mode⟩ : configData_t).wifichancycle ≠ 0 := by
    show (C : Int) ≠ 0
    omega
  generalize hT : (100 / C) * (S * 2) + 1 = T at hfit hthr ⊢
  intro n
  induction n with
  | zero =>
    intro j s m _ _
    exact ⟨by simp, fun k r h => by simp [sniffer_loop] at h⟩
  | succ n ih =>
    intro j s m hs hm
    have hw : wrap_int (s.nloop + 1) = ((m + 1 : Nat) : Int) := by
      rw [hs, wrap_int_of_range _ (by omega) (by omega)]
      push_cast; rfl
    by_cases hlt : m + 1 < T
    · -- the tick stays below the threshold
      have hbelow : wrap_int (s.nloop + 1) < cycle_threshold ⟨C, S, mode⟩ := by
        rw [hw, hthr]; exact_mod_cast hlt
      have htick := sniffer_tick_below ⟨C, S, mode⟩ N M R (world j) fuel s hN0 hC0 hbelow
      have hcomp := completed_below ⟨C, S, mode⟩ N M R (world j) fuel s hN0 hC0 hbelow
      have hrun : (sniffer_tick ⟨C, S, mode⟩ N M R (world j) fuel s).outcome
          = Outcome.running := by rw [htick]
      have hnl : (sniffer_tick ⟨C, S, mode⟩ N M R (world j) fuel s).st.nloop
          = ((m + 1 : Nat) : Int) := by rw [htick]; exact hw
      obtain ⟨ihlen, ihk⟩ := ih (j + 1) _ (m + 1) hnl hlt
      constructor
      · rw [sniffer_loop_succ, hrun]
        simp only [List.length_cons]
        omega
      · intro k r hk
        cases k with
        | zero =>
          have hr := sniffer_loop_head _ _ _ _ _ _ _ _ _ _ hk
          subst hr
          rw [hcomp]
          constructor
          · constructor
            · intro h; cases h
            · intro hdvd
              have := Nat.le_of_dvd (by omega) hdvd
              omega
          · intro h; cases h
        | succ k =>
          obtain ⟨_, hk2⟩ := sniffer_loop_tail _ _ _ _ _ _ _ _ _ _ _ hk
          have := ihk k r hk2
          rwa [show m + 1 + k + 1 = m + (k + 1) + 1 by omega] at this
    · -- the tick reaches the threshold: m + 1 = T
      have hmT : m + 1 = T := by omega
      have hreach : cycle_threshold ⟨C, S, mode⟩ ≤ wrap_int (s.nloop + 1) := by
        rw [hw, hthr, hmT]
      have hcomp := completed_reached ⟨C, S, mode⟩ N M R (world j) fuel s hN0 hC0 hreach
      obtain ⟨_, _, hnl, hch, _⟩ :=
        sniffer_tick_reached ⟨C, S, mode⟩ N M R (world j) fuel s hN0 hC0 hreach
      constructor
      · rw [sniffer_loop_succ]
        split <;> simp only [List.length_cons, List.length_nil] <;> omega
      · intro k r hk
        cases k with
        | zero =>
          have hr := sniffer_loop_head _ _ _ _ _ _ _ _ _ _ hk
          subst hr
          refine ⟨⟨fun _ => ?_, fun _ => hcomp⟩, fun _ => ⟨hnl, hch⟩⟩
          rw [show m + 0 + 1 = T by omega]
        | succ k =>
          obtain ⟨_, hk2⟩ := sniffer_loop_tail _ _ _ _ _ _ _ _ _ _ _ hk
          have hnl0 : (sniffer_tick ⟨C, S, mode⟩ N M R (world j) fuel s).st.nloop
              = ((0 : Nat) : Int) := by rw [hnl]; rfl
          have := (ih (j + 1) _ 0 hnl0 (by omega)).2 k r hk2
          rw [show m + (k + 1) + 1 = T + (0 + k + 1) by omega, Nat.dvd_add_right (dvd_refl T)]
          exact this

/-- C1. With channel-hop period `C >= 1` and scan-cycle duration `S` (threshold
`T = floor(100/C) * (S*2) + 1` representable as `int`), a loop started with
tick counter 0 reaches tick `T`; the tick number `k + 1` takes the
cycle-completion branch exactly when `T` divides `k + 1` (so first at tick `T`,
at no earlier tick, then at `2T`, `3T`, ...); a completing tick leaves the tick
counter and the channel index at 0; and when the busy flag clears in time at
every completion, all `n` ticks are made. -/
theorem sniffer_loop_cycle_completion (C S : Nat) (mode : Int) (N : Nat) (M : Int)
    (R : SaltRotation) (world : Nat → GateEnv) (fuel n : Nat) (s0 : SnifferState)
    (hC : 1 ≤ C) (hfit : (100 / C) * (S * 2) + 1 ≤ 2147483647) (hN : 1 ≤ N)
    (h0 : s0.nloop = 0) :
    min n ((100 / C) * (S * 2) + 1) ≤
      (sniffer_loop ⟨C, S, mode⟩ N M R world fuel n 0 s0).length ∧
    (∀ (k : Nat) (r : TickResult),
      (sniffer_loop ⟨C, S, mode⟩ N M R world fuel n 0 s0)[k]? = some r →
      (r.completed = true ↔ (100 / C) * (S * 2) + 1 ∣ k + 1) ∧
      (r.completed = true → r.st.nloop = 0 ∧ r.st.channel = 0)) ∧
    (M ≤ 2147483647 →
      (∀ j, ∃ k : Nat, (k : Int) < M ∧ k < fuel ∧ (world j).busy k = false) →
      (sniffer_loop ⟨C, S, mode⟩ N M R world fuel n 0 s0).length = n) := by
  obtain ⟨hlen, hk⟩ := sniffer_loop_cycle_from C S mode N M R world fuel hC hfit hN n 0 s0 0
    (by rw [h0]; rfl) (by omega)
  refine ⟨by simpa using hlen, fun k r h => ?_, fun hMax hclear => ?_⟩
  · simpa using hk k r h
  · exact sniffer_loop_length ⟨C, S, mode⟩ N M R world fuel (by omega)
      (by show (C : Int) ≠ 0; omega) hMax hclear n 0 s0

/-- C1 at `C = 100`, `S = 1` (threshold 3), thirteen channels, never-busy
engine, seven ticks. -/
theorem sniffer_loop_cycle_completion_witness :
    min 7 ((100 / 100) * (1 * 2) + 1) ≤
      (sniffer_loop ⟨(100 : Nat), (1 : Nat), 0⟩ 13 500 nextSalt (fun _ => idle_env) 5 7 0
        (init_state 5)).length ∧
    (∀ (k : Nat) (r : TickResult),
      (sniffer_loop ⟨(100 : Nat), (1 : Nat), 0⟩ 13 500 nextSalt (fun _ => idle_env) 5 7 0
        (init_state 5))[k]? = some r →
      (r.completed = true ↔ (100 / 100) * (1 * 2) + 1 ∣ k + 1) ∧
      (r.completed = true → r.st.nloop = 0 ∧ r.st.channel = 0)) ∧
    (sniffer_loop ⟨(100 : Nat), (1 : Nat), 0⟩ 13 500 nextSalt (fun _ => idle_env) 5 7 0
      (init_state 5)).length = 7 := by
  have h := sniffer_loop_cycle_completion 100 1 0 13 500 nextSalt (fun _ => idle_env) 5 7
    (init_state 5) (by decide) (by decide) (by decide) rfl
  exact ⟨h.1, h.2.1, h.2.2 (by decide) (fun _ => ⟨0, by decide, by decide, rfl⟩)⟩

/-! ## C2: the retry guard of the uplink gate -/

theorem esp_restart_not_mem_busy_polls (k : Nat) : Effect.esp_restart ∉ busy_polls k := by
  intro h
  induction k with
  | zero => simp [busy_polls] at h
  | succ k ih =>
    rw [busy_polls_succ] at h
    simp only [List.mem_cons] at h
    rcases h with h | h | h
    · cases h
    · cases h
    · exact ih h

/-- C2. For `MAXLORARETRY = M >= 1` (an `int` constant) and every state in
which a cycle completes, the wait of the uplink gate starts with retry counter
0 and: if the busy flag is read busy on `k < M` polls and clear on the next,
the completion ends normally after those `k + 1` reads with no `esp_restart`;
if the flag is read busy on the first `M` polls, `esp_restart` is called right
after read number `M`, not earlier, and nothing follows it. -/
theorem uplink_gate_retry_guard (M : Nat) (hM : 1 ≤ M) (hMax : (M : Int) ≤ 2147483647)
    (cfg : configData_t) (R : SaltRotation) (env : GateEnv) (fuel : Nat) (s : SnifferState) :
    (∀ k : Nat, k < M → k < fuel → (∀ j, j < k → env.busy j = true) → env.busy k = false →
      (send_cycle cfg M R env fuel s).outcome = Outcome.running ∧
      (send_cycle cfg M R env fuel s).trace =
        Effect.do_send env.accepted ::
          (policy_trace cfg ++ (busy_polls k ++ [Effect.read_txrxpend false])) ∧
      Effect.esp_restart ∉ (send_cycle cfg M R env fuel s).trace) ∧
    (M ≤ fuel → (∀ j, j < M → env.busy j = true) →
      (send_cycle cfg M R env fuel s).outcome = Outcome.restarted ∧
      (send_cycle cfg M R env fuel s).trace =
        Effect.do_send env.accepted ::
          (policy_trace cfg ++
            (busy_polls (M - 1) ++ [Effect.read_txrxpend true, Effect.esp_restart]))) := by
  obtain ⟨ho, ht, _⟩ := send_cycle_spec cfg M R env fuel s
  have hlw := (gate_entry_fields cfg R s).2.2.1
  constructor
  · intro k hkM hkf hbusy hclear
    obtain ⟨h1, h2⟩ := lora_wait_clears M env.busy hMax k fuel _ hlw (by omega) hkf hbusy hclear
    refine ⟨by rw [ho, h1], by rw [ht, h2], ?_⟩
    rw [ht, h2]
    have hp := esp_restart_not_mem_busy_polls k
    unfold policy_trace
    split <;> simp [hp]
  · intro hfuel hbusy
    obtain ⟨h1, h2⟩ := lora_wait_stuck M env.busy hM hMax fuel _ hlw hfuel hbusy
    exact ⟨by rw [ho, h1], by rw [ht, h2]⟩

/-- C2 at `MAXLORARETRY = 3`: busy on two polls and then clear, no restart;
busy throughout, restart right after the third read. -/
theorem uplink_gate_retry_guard_witness :
    ((send_cycle ⟨50, 120, 0⟩ (3 : Nat) nextSalt ⟨true, fun i => decide (i < 2)⟩ 5
        (init_state 5)).outcome = Outcome.running ∧
      (send_cycle ⟨50, 120, 0⟩ (3 : Nat) nextSalt ⟨true, fun i => decide (i < 2)⟩ 5
        (init_state 5)).trace =
        Effect.do_send true ::
          (policy_trace ⟨50, 120, 0⟩ ++ (busy_polls 2 ++ [Effect.read_txrxpend false])) ∧
      Effect.esp_restart ∉
        (send_cycle ⟨50, 120, 0⟩ (3 : Nat) nextSalt ⟨true, fun i => decide (i < 2)⟩ 5
          (init_state 5)).trace) ∧
    ((send_cycle ⟨50, 120, 0⟩ (3 : Nat) nextSalt stuck_env 5 (init_state 5)).outcome
        = Outcome.restarted ∧
      (send_cycle ⟨50, 120, 0⟩ (3 : Nat) nextSalt stuck_env 5 (init_state 5)).trace =
        Effect.do_send false ::
          (policy_trace ⟨50, 120, 0⟩ ++
            (busy_polls (3 - 1) ++ [Effect.read_txrxpend true, Effect.esp_restart]))) :=
  ⟨(uplink_gate_retry_guard 3 (by decide) (by decide) ⟨50, 120, 0⟩ nextSalt
      ⟨true, fun i => decide (i < 2)⟩ 5 (init_state 5)).1 2 (by decide) (by decide)
      (fun j hj => by simpa using hj) (by decide),
   (uplink_gate_retry_guard 3 (by decide) (by decide) ⟨50, 120, 0⟩ nextSalt stuck_env 5
      (init_state 5)).2 (by decide) (fun _ _ => rfl)⟩

/-! ## C3: channel rotation -/

theorem policy_trace_channels (cfg : configData_t) :
    (policy_trace cfg).filterMap (fun e => match e with
      | Effect.set_channel c => some c
      | _ => none) = [] := by
  unfold policy_trace
  split <;> rfl

theorem wait_trace_channels (l : List Effect) (h : ∀ e ∈ l, e.is_wait = true) :
    l.filterMap (fun e => match e with
      | Effect.set_channel c => some c
      | _ => none) = [] := by
  rw [List.filterMap_eq_nil_iff]
  intro e he
  have := h e he
  cases e <;> simp_all [Effect.is_wait]

/-- With a channel count between 1 and 255 every tick hands exactly one
channel to `wifi_sniffer_set_channel`, namely `(channel mod N) + 1`. -/
theorem sniffer_tick_channels (cfg : configData_t) (N : Nat) (M : Int) (R : SaltRotation)
    (env : GateEnv) (fuel : Nat) (s : SnifferState) (hN1 : 1 ≤ N) (hN : N ≤ 255) :
    (sniffer_tick cfg N M R env fuel s).channels = [(s.channel % N) + 1] := by
  have hN0 : N ≠ 0 := by omega
  have hlt : s.channel % N < N := Nat.mod_lt _ (by omega)
  have hch : (rotated N s).channel = (s.channel % N) + 1 := by
    show ((s.channel % N) + 1) % 256 = (s.channel % N) + 1
    exact Nat.mod_eq_of_lt (by omega)
  by_cases hC : cfg.wifichancycle = 0
  · have : sniffer_tick cfg N M R env fuel s =
        ⟨rotated N s, [Effect.set_channel (rotated N s).channel], Outcome.divByZero⟩ := by
      unfold sniffer_tick
      simp [hN0, hC, rotated]
    rw [this]
    simp [TickResult.channels, hch]
  · by_cases hb : wrap_int (s.nloop + 1) < cycle_threshold cfg
    · rw [sniffer_tick_below cfg N M R env fuel s hN0 hC hb]
      simp [TickResult.channels, hch]
    · have ht := (sniffer_tick_reached cfg N M R env fuel s hN0 hC (by omega)).2.1
      unfold TickResult.channels
      rw [ht]
      have hw := wait_trace_channels _
        (lora_wait_trace_is_wait M env.busy fuel 0 (gate_entry cfg R (rotated N s)))
      have hp := policy_trace_channels cfg
      simp only [List.filterMap_cons, List.filterMap_append, hw, hp, hch]
      split <;> simp

/-- The loop started with tick counter and channel both `m < N`, threshold at
least `N`: up to tick `N + 1` the channels handed over count up to `N` and then
start again at 1. -/
theorem sniffer_loop_channels_from (C S : Nat) (mode : Int) (N : Nat) (M : Int)
    (R : SaltRotation) (world : Nat → GateEnv) (fuel : Nat) (hC : 1 ≤ C)
    (hfit : (100 / C) * (S * 2) + 1 ≤ 2147483647) (hN1 : 1 ≤ N) (hN : N ≤ 255)
    (hNT : N ≤ (100 / C) * (S * 2) + 1) :
    ∀ (n j : Nat) (s : SnifferState) (m : Nat), s.nloop = (m : Int) → s.channel = m → m < N →
      ∀ (k : Nat) (r : TickResult),
        (sniffer_loop ⟨C, S, mode⟩ N M R world fuel n j s)[k]? = some r → m + k ≤ N →
        r.channels = [if m + k < N then m + k + 1 else 1] := by
  have hthr := cycle_threshold_eq C S mode hfit
  have hN0 : N ≠ 0 := by omega
  have hC0 : (⟨C, S, mode⟩ : configData_t).wifichancycle ≠ 0 := by
    show (C : Int) ≠ 0
    omega
  generalize hT : (100 / C) * (S * 2) + 1 = T at hfit hthr hNT ⊢
  intro n
  induction n with
  | zero => intro j s m _ _ _ k r h; simp [sniffer_loop] at h
  | succ n ih =>
    intro j s m hs hc hm k r hk hkN
    have hmod : s.channel % N = m := by rw [hc]; exact Nat.mod_eq_of_lt hm
    cases k with
    | zero =>
      have hr := sniffer_loop_head _ _ _ _ _ _ _ _ _ _ hk
      subst hr
      rw [sniffer_tick_channels _ N M R _ fuel s hN1 hN, hmod]
      simp [hm]
    | succ k =>
      obtain ⟨_, hk2⟩ := sniffer_loop_tail _ _ _ _ _ _ _ _ _ _ _ hk
      have hw : wrap_int (s.nloop + 1) = ((m + 1 : Nat) : Int) := by
        rw [hs, wrap_int_of_range _ (by omega) (by omega)]
        push_cast; rfl
      have hrot : (rotated N s).channel = m + 1 := by
        show ((s.channel % N) + 1) % 256 = m + 1
        rw [hmod]
        exact Nat.mod_eq_of_lt (by omega)
      by_cases hlt : m + 1 < N
      · have hbelow : wrap_int (s.nloop + 1) < cycle_threshold ⟨C, S, mode⟩ := by
          rw [hw, hthr]; exact_mod_cast (by omega : m + 1 < T)
        have htick := sniffer_tick_below ⟨C, S, mode⟩ N M R (world j) fuel s hN0 hC0 hbelow
        rw [htick] at hk2
        have := ih (j + 1) (rotated N s) (m + 1) hw hrot hlt k r hk2 (by omega)
        rw [this, show m + 1 + k = m + (k + 1) by omega]
      · have hk0 : k = 0 := by omega
        subst hk0
        have hr := sniffer_loop_head _ _ _ _ _ _ _ _ _ _ hk2
        subst hr
        rw [sniffer_tick_channels _ N M R _ fuel _ hN1 hN]
        have hdiv : (sniffer_tick ⟨C, S, mode⟩ N M R (world j) fuel s).st.channel % N = 0 := by
          by_cases hb : m + 1 < T
          · have hbelow : wrap_int (s.nloop + 1) < cycle_threshold ⟨C, S, mode⟩ := by
              rw [hw, hthr]; exact_mod_cast hb
            rw [sniffer_tick_below ⟨C, S, mode⟩ N M R (world j) fuel s hN0 hC0 hbelow]
            show (rotated N s).channel % N = 0
            rw [hrot, show m + 1 = N by omega]
            exact Nat.mod_self N
          · have hreach : cycle_threshold ⟨C, S, mode⟩ ≤ wrap_int (s.nloop + 1) := by
              rw [hw, hthr]; exact_mod_cast (by omega : T ≤ m + 1)
            rw [(sniffer_tick_reached ⟨C, S, mode⟩ N M R (world j) fuel s hN0 hC0
              hreach).2.2.2.1]
            exact Nat.zero_mod N
        rw [hdiv]
        simp [show ¬ (m + (0 + 1) < N) by omega]

/-- C3, as amended.  For every channel count `N` in `1..255`: (1) every tick
hands exactly one channel to `wifi_sniffer_set_channel`, the value
`(c mod N) + 1` for the current channel `c`, which lies in `1..N` and is never
0; (2) when the cycle threshold `T = floor(100/C)*(S*2)+1` is at least `N`, a
loop started with channel 0 and tick counter 0 hands over `1, 2, ..., N` on
ticks `1..N` and 1 again on tick `N + 1`, and the first `min n T` ticks are
always made. -/
theorem sniffer_channel_rotation (N : Nat) (hN1 : 1 ≤ N) (hN : N ≤ 255) (M : Int)
    (R : SaltRotation) :
    (∀ (cfg : configData_t) (env : GateEnv) (fuel : Nat) (s : SnifferState),
      (sniffer_tick cfg N M R env fuel s).channels = [(s.channel % N) + 1] ∧
      1 ≤ (s.channel % N) + 1 ∧ (s.channel % N) + 1 ≤ N) ∧
    (∀ (C S : Nat) (mode : Int) (world : Nat → GateEnv) (fuel n : Nat) (s0 : SnifferState),
      1 ≤ C → (100 / C) * (S * 2) + 1 ≤ 2147483647 → N ≤ (100 / C) * (S * 2) + 1 →
      s0.nloop = 0 → s0.channel = 0 →
      min n ((100 / C) * (S * 2) + 1) ≤
        (sniffer_loop ⟨C, S, mode⟩ N M R world fuel n 0 s0).length ∧
      ∀ (k : Nat) (r : TickResult),
        (sniffer_loop ⟨C, S, mode⟩ N M R world fuel n 0 s0)[k]? = some r → k ≤ N →
        r.channels = [if k < N then k + 1 else 1]) := by
  constructor
  · intro cfg env fuel s
    have hlt : s.channel % N < N := Nat.mod_lt _ (by omega)
    exact ⟨sniffer_tick_channels cfg N M R env fuel s hN1 hN, by omega, by omega⟩
  · intro C S mode world fuel n s0 hC hfit hNT h0 hc0
    constructor
    · have := (sniffer_loop_cycle_from C S mode N M R world fuel hC hfit hN1 n 0 s0 0
        (by rw [h0]; rfl) (by omega)).1
      simpa using this
    · intro k r hk hkN
      have := sniffer_loop_channels_from C S mode N M R world fuel hC hfit hN1 hN hNT n 0 s0 0
        (by rw [h0]; rfl) hc0 (by omega) k r hk (by omega)
      simpa using this

/-- C3 as amended, at `N = 13` with the threshold 481 of `C = 50`, `S = 120`. -/
theorem sniffer_channel_rotation_witness :
    (∀ (cfg : configData_t) (env : GateEnv) (fuel : Nat) (s : SnifferState),
      (sniffer_tick cfg 13 500 nextSalt env fuel s).channels = [(s.channel % 13) + 1] ∧
      1 ≤ (s.channel % 13) + 1 ∧ (s.channel % 13) + 1 ≤ 13) ∧
    (min 20 ((100 / 50) * (120 * 2) + 1) ≤
        (sniffer_loop ⟨(50 : Nat), (120 : Nat), 0⟩ 13 500 nextSalt (fun _ => stuck_env) 5 20 0
          (init_state 5)).length ∧
      ∀ (k : Nat) (r : TickResult),
        (sniffer_loop ⟨(50 : Nat), (120 : Nat), 0⟩ 13 500 nextSalt (fun _ => stuck_env) 5 20 0
          (init_state 5))[k]? = some r → k ≤ 13 →
        r.channels = [if k < 13 then k + 1 else 1]) := by
  have h := sniffer_channel_rotation 13 (by decide) (by decide) 500 nextSalt
  exact ⟨h.1, h.2 50 120 0 (fun _ => stuck_env) 5 20 (init_state 5) (by decide) (by decide)
    (by decide) rfl rfl⟩

/-- C3 as stated fails: with 13 channels, `C = 100` and `S = 1` the cycle
completes at tick 3 and resets the channel, so ticks 1..4 hand over
`1, 2, 3, 1` and not `1, 2, 3, 4`. -/
theorem sniffer_channel_rotation_reset_counterexample :
    (sniffer_loop ⟨100, 1, 0⟩ 13 500 nextSalt (fun _ => idle_env) 5 4 0 (init_state 5)).map
      TickResult.channels = [[1], [2], [3], [1]] ∧
    (sniffer_loop ⟨100, 1, 0⟩ 13 500 nextSalt (fun _ => idle_env) 5 4 0 (init_state 5)).map
      TickResult.completed = [false, false, true, false] := by
  decide

/-! ## C4, C6, C10: the reset policy at a cycle completion -/

/-- A tick that called `do_send` got past both divisions and met the cycle
test. -/
theorem completed_inv (cfg : configData_t) (N : Nat) (M : Int) (R : SaltRotation)
    (env : GateEnv) (fuel : Nat) (s : SnifferState)
    (h : (sniffer_tick cfg N M R env fuel s).completed = true) :
    N ≠ 0 ∧ cfg.wifichancycle ≠ 0 ∧ cycle_threshold cfg ≤ wrap_int (s.nloop + 1) := by
  by_cases hN : N = 0
  · have : sniffer_tick cfg N M R env fuel s =
        ⟨{ s with nloop := wrap_int (s.nloop + 1) }, [], Outcome.divByZero⟩ := by
      unfold sniffer_tick
      simp [hN]
    rw [this] at h
    simp [TickResult.completed] at h
  · by_cases hC : cfg.wifichancycle = 0
    · have : sniffer_tick cfg N M R env fuel s =
          ⟨rotated N s, [Effect.set_channel (rotated N s).channel], Outcome.divByZero⟩ := by
        unfold sniffer_tick
        simp [hN, hC, rotated]
      rw [this] at h
      simp [TickResult.completed] at h
    · by_cases hb : wrap_int (s.nloop + 1) < cycle_threshold cfg
      · rw [completed_below cfg N M R env fuel s hN hC hb] at h
        cases h
      · exact ⟨hN, hC, by omega⟩

/-- The effects of a completing tick: the channel, the submission, the reset
policy, and then only effects of the wait loop and delays. -/
theorem sniffer_tick_reached_shape (cfg : configData_t) (N : Nat) (M : Int)
    (R : SaltRotation) (env : GateEnv) (fuel : Nat) (s : SnifferState) (hN : N ≠ 0)
    (hC : cfg.wifichancycle ≠ 0) (hge : cycle_threshold cfg ≤ wrap_int (s.nloop + 1)) :
    ∃ post : List Effect,
      (sniffer_tick cfg N M R env fuel s).trace =
        Effect.set_channel (rotated N s).channel :: Effect.do_send env.accepted ::
          (policy_trace cfg ++ post) ∧
      ∀ e ∈ post, e.is_wait = true := by
  refine ⟨_, (sniffer_tick_reached cfg N M R env fuel s hN hC hge).2.1, ?_⟩
  intro e he
  rw [List.mem_append] at he
  rcases he with he | he
  · exact lora_wait_trace_is_wait M env.busy fuel 0 _ e he
  · split at he
    · simp only [List.mem_singleton] at he
      subst he; rfl
    · simp at he

/-- C4. At a cycle boundary (a tick of `sniffer_loop` that takes the completion
branch): with `cfg.countermode != 1` the set `macs` is empty, `macs_total`,
`macs_wifi` and `macs_ble` are 0 and the salt is the rotated one, different
from the salt before; with `cfg.countermode == 1` set, counters and salt are
those from before the boundary. -/
theorem cycle_boundary_reset_policy (cfg : configData_t) (N : Nat) (M : Int)
    (R : SaltRotation) (env : GateEnv) (fuel : Nat) (s : SnifferState)
    (hdone : (sniffer_tick cfg N M R env fuel s).completed = true) :
    (cfg.countermode ≠ 1 →
      (sniffer_tick cfg N M R env fuel s).st.macs = ∅ ∧
      (sniffer_tick cfg N M R env fuel s).st.macs_total = 0 ∧
      (sniffer_tick cfg N M R env fuel s).st.macs_wifi = 0 ∧
      (sniffer_tick cfg N M R env fuel s).st.macs_ble = 0 ∧
      (sniffer_tick cfg N M R env fuel s).st.salt = R.rotate s.salt ∧
      (sniffer_tick cfg N M R env fuel s).st.salt ≠ s.salt) ∧
    (cfg.countermode = 1 →
      (sniffer_tick cfg N M R env fuel s).st.macs = s.macs ∧
      (sniffer_tick cfg N M R env fuel s).st.macs_total = s.macs_total ∧
      (sniffer_tick cfg N M R env fuel s).st.macs_wifi = s.macs_wifi ∧
      (sniffer_tick cfg N M R env fuel s).st.macs_ble = s.macs_ble ∧
      (sniffer_tick cfg N M R env fuel s).st.salt = s.salt) := by
  obtain ⟨hN, hC, hge⟩ := completed_inv cfg N M R env fuel s hdone
  obtain ⟨_, _, _, _, h5, h6, h7, h8, h9⟩ := sniffer_tick_reached cfg N M R env fuel s hN hC hge
  obtain ⟨_, _, _, g4, g5, g6, g7, g8⟩ := gate_entry_fields cfg R (rotated N s)
  rw [h5, h6, h7, h8, h9, g4, g5, g6, g7, g8]
  constructor
  · intro hm
    simp only [hm, ne_eq, not_false_eq_true, if_true, true_and]
    exact ⟨rfl, R.rotate_ne _⟩
  · intro hm
    simp only [hm, ne_eq, not_true_eq_false, if_false]
    exact ⟨rfl, rfl, rfl, rfl, rfl⟩

/-- C4 at the last tick of a 481-tick cycle with one MAC counted, in per-cycle
mode (`countermode = 0`) and in cumulative mode (`countermode = 1`). -/
theorem cycle_boundary_reset_policy_witness :
    ((sniffer_tick ⟨50, 120, 0⟩ 13 500 nextSalt idle_env 5 boundary_state).st.macs = ∅ ∧
      (sniffer_tick ⟨50, 120, 0⟩ 13 500 nextSalt idle_env 5 boundary_state).st.macs_total = 0 ∧
      (sniffer_tick ⟨50, 120, 0⟩ 13 500 nextSalt idle_env 5 boundary_state).st.macs_wifi = 0 ∧
      (sniffer_tick ⟨50, 120, 0⟩ 13 500 nextSalt idle_env 5 boundary_state).st.macs_ble = 0 ∧
      (sniffer_tick ⟨50, 120, 0⟩ 13 500 nextSalt idle_env 5 boundary_state).st.salt =
        nextSalt.rotate boundary_state.salt ∧
      (sniffer_tick ⟨50, 120, 0⟩ 13 500 nextSalt idle_env 5 boundary_state).st.salt ≠
        boundary_state.salt) ∧
    ((sniffer_tick ⟨50, 120, 1⟩ 13 500 nextSalt idle_env 5 boundary_state).st.macs =
        boundary_state.macs ∧
      (sniffer_tick ⟨50, 120, 1⟩ 13 500 nextSalt idle_env 5 boundary_state).st.macs_total =
        boundary_state.macs_total ∧
      (sniffer_tick ⟨50, 120, 1⟩ 13 500 nextSalt idle_env 5 boundary_state).st.macs_wifi =
        boundary_state.macs_wifi ∧
      (sniffer_tick ⟨50, 120, 1⟩ 13 500 nextSalt idle_env 5 boundary_state).st.macs_ble =
        boundary_state.macs_ble ∧
      (sniffer_tick ⟨50, 120, 1⟩ 13 500 nextSalt idle_env 5 boundary_state).st.salt =
        boundary_state.salt) :=
  ⟨(cycle_boundary_reset_policy ⟨50, 120, 0⟩ 13 500 nextSalt idle_env 5 boundary_state
      (by decide)).1 (by decide),
   (cycle_boundary_reset_policy ⟨50, 120, 1⟩ 13 500 nextSalt idle_env 5 boundary_state
      (by decide)).2 rfl⟩

/-! ### C6: the policy does not look at the acceptance of the job -/

/-- C6, as amended.  At every cycle completion, whatever the answer of the
protocol engine to the submission (`env.accepted`, which `do_send` does not
report to `sniffer_loop`): `do_send` is called; with `cfg.countermode != 1`
both `reset_counters` and `reset_salt` are called, the set is emptied, the
counters are zeroed and the salt is rotated; with `cfg.countermode == 1`
neither is called and set, counters and salt are unchanged. -/
theorem reset_policy_regardless_of_acceptance (cfg : configData_t) (N : Nat) (M : Int)
    (R : SaltRotation) (env : GateEnv) (fuel : Nat) (s : SnifferState)
    (hdone : (sniffer_tick cfg N M R env fuel s).completed = true) :
    Effect.do_send env.accepted ∈ (sniffer_tick cfg N M R env fuel s).trace ∧
    (cfg.countermode ≠ 1 →
      Effect.reset_counters ∈ (sniffer_tick cfg N M R env fuel s).trace ∧
      Effect.reset_salt ∈ (sniffer_tick cfg N M R env fuel s).trace ∧
      (sniffer_tick cfg N M R env fuel s).st.macs = ∅ ∧
      (sniffer_tick cfg N M R env fuel s).st.macs_total = 0 ∧
      (sniffer_tick cfg N M R env fuel s).st.macs_wifi = 0 ∧
      (sniffer_tick cfg N M R env fuel s).st.macs_ble = 0 ∧
      (sniffer_tick cfg N M R env fuel s).st.salt = R.rotate s.salt) ∧
    (cfg.countermode = 1 →
      Effect.reset_counters ∉ (sniffer_tick cfg N M R env fuel s).trace ∧
      Effect.reset_salt ∉ (sniffer_tick cfg N M R env fuel s).trace ∧
      (sniffer_tick cfg N M R env fuel s).st.macs = s.macs ∧
      (sniffer_tick cfg N M R env fuel s).st.macs_total = s.macs_total ∧
      (sniffer_tick cfg N M R env fuel s).st.macs_wifi = s.macs_wifi ∧
      (sniffer_tick cfg N M R env fuel s).st.macs_ble = s.macs_ble ∧
      (sniffer_tick cfg N M R env fuel s).st.salt = s.salt) := by
  obtain ⟨hN, hC, hge⟩ := completed_inv cfg N M R env fuel s hdone
  obtain ⟨_, _, _, _, h5, h6, h7, h8, h9⟩ := sniffer_tick_reached cfg N M R env fuel s hN hC hge
  obtain ⟨_, _, _, g4, g5, g6, g7, g8⟩ := gate_entry_fields cfg R (rotated N s)
  obtain ⟨post, htr, hpost⟩ := sniffer_tick_reached_shape cfg N M R env fuel s hN hC hge
  rw [h5, h6, h7, h8, h9, g4, g5, g6, g7, g8, htr]
  refine ⟨by simp, ?_, ?_⟩
  · intro hm
    simp only [hm, ne_eq, not_false_eq_true, if_true, policy_trace]
    simp [rotated]
  · intro hm
    have hp : policy_trace cfg = [] := by simp [policy_trace, hm]
    simp only [hm, ne_eq, not_true_eq_false, if_false, hp, List.nil_append]
    refine ⟨?_, ?_, rfl, rfl, rfl, rfl, rfl⟩
    · intro hmem
      simp only [List.mem_cons] at hmem
      rcases hmem with h | h | h
      · cases h
      · cases h
      · have := hpost _ h
        cases this
    · intro hmem
      simp only [List.mem_cons] at hmem
      rcases hmem with h | h | h
      · cases h
      · cases h
      · have := hpost _ h
        cases this

/-- C6 as amended, at a completion whose job is rejected (`pending_env`): in
per-cycle mode the reset is made all the same, in cumulative mode it is not. -/
theorem reset_policy_regardless_of_acceptance_witness :
    pending_env.accepted = false ∧
    (Effect.reset_counters ∈
        (sniffer_tick ⟨50, 120, 0⟩ 13 500 nextSalt pending_env 5 boundary_state).trace ∧
      Effect.reset_salt ∈
        (sniffer_tick ⟨50, 120, 0⟩ 13 500 nextSalt pending_env 5 boundary_state).trace ∧
      (sniffer_tick ⟨50, 120, 0⟩ 13 500 nextSalt pending_env 5 boundary_state).st.macs = ∅ ∧
      (sniffer_tick ⟨50, 120, 0⟩ 13 500 nextSalt pending_env 5 boundary_state).st.macs_total
        = 0 ∧
      (sniffer_tick ⟨50, 120, 0⟩ 13 500 nextSalt pending_env 5 boundary_state).st.macs_wifi
        = 0 ∧
      (sniffer_tick ⟨50, 120, 0⟩ 13 500 nextSalt pending_env 5 boundary_state).st.macs_ble
        = 0 ∧
      (sniffer_tick ⟨50, 120, 0⟩ 13 500 nextSalt pending_env 5 boundary_state).st.salt =
        nextSalt.rotate boundary_state.salt) ∧
    (Effect.reset_counters ∉
        (sniffer_tick ⟨50, 120, 1⟩ 13 500 nextSalt pending_env 5 boundary_state).trace ∧
      Effect.reset_salt ∉
        (sniffer_tick ⟨50, 120, 1⟩ 13 500 nextSalt pending_env 5 boundary_state).trace ∧
      (sniffer_tick ⟨50, 120, 1⟩ 13 500 nextSalt pending_env 5 boundary_state).st.macs =
        boundary_state.macs ∧
      (sniffer_tick ⟨50, 120, 1⟩ 13 500 nextSalt pending_env 5 boundary_state).st.macs_total
        = boundary_state.macs_total ∧
      (sniffer_tick ⟨50, 120, 1⟩ 13 500 nextSalt pending_env 5 boundary_state).st.macs_wifi
        = boundary_state.macs_wifi ∧
      (sniffer_tick ⟨50, 120, 1⟩ 13 500 nextSalt pending_env 5 boundary_state).st.macs_ble
        = boundary_state.macs_ble ∧
      (sniffer_tick ⟨50, 120, 1⟩ 13 500 nextSalt pending_env 5 boundary_state).st.salt =
        boundary_state.salt) :=
  ⟨rfl,
   (reset_policy_regardless_of_acceptance ⟨50, 120, 0⟩ 13 500 nextSalt pending_env 5
      boundary_state (by decide)).2.1 (by decide),
   (reset_policy_regardless_of_acceptance ⟨50, 120, 1⟩ 13 500 nextSalt pending_env 5
      boundary_state (by decide)).2.2 rfl⟩

/-- C6 as stated fails: the job of this completion is not accepted (a
transmission is pending), yet in per-cycle mode the set is emptied, the
counters are zeroed and the salt is rotated. -/
theorem reset_despite_rejected_job_counterexample :
    pending_env.accepted = false ∧
    (sniffer_tick ⟨50, 120, 0⟩ 13 500 nextSalt pending_env 5 boundary_state).trace =
      [Effect.set_channel 6, Effect.do_send false, Effect.reset_counters, Effect.reset_salt,
        Effect.read_txrxpend true, Effect.vTaskDelay 1000, Effect.read_txrxpend false,
        Effect.vTaskDelay 500] ∧
    boundary_state.macs = {7} ∧ boundary_state.macs_total = 1 ∧ boundary_state.salt = 5 ∧
    (sniffer_tick ⟨50, 120, 0⟩ 13 500 nextSalt pending_env 5 boundary_state).st.macs = ∅ ∧
    (sniffer_tick ⟨50, 120, 0⟩ 13 500 nextSalt pending_env 5 boundary_state).st.macs_total = 0 ∧
    (sniffer_tick ⟨50, 120, 0⟩ 13 500 nextSalt pending_env 5 boundary_state).st.salt = 6 := by
  decide

/-! ### C10: order of the effects of a cycle completion -/

/-- C10. The effects of a tick of `sniffer_loop` are ordered.  A tick that does
not complete a cycle (no `do_send`) makes no reset call.  A tick that completes
one hands over the channel, then calls `do_send`, then (exactly when
`cfg.countermode != 1`) `reset_counters` and `reset_salt`, and everything after
that is a read of the busy flag, a delay or the restart: every read of the flag
comes after the reset, and no reset and no submission comes after a read. -/
theorem completion_effect_order (cfg : configData_t) (N : Nat) (M : Int)
    (R : SaltRotation) (env : GateEnv) (fuel : Nat) (s : SnifferState) :
    ((sniffer_tick cfg N M R env fuel s).completed = false ∧
      ∀ e ∈ (sniffer_tick cfg N M R env fuel s).trace, e.is_reset = false) ∨
    ((sniffer_tick cfg N M R env fuel s).completed = true ∧
      ∃ (c : Nat) (post : List Effect),
        (sniffer_tick cfg N M R env fuel s).trace =
          Effect.set_channel c :: Effect.do_send env.accepted ::
            ((if cfg.countermode ≠ 1 then [Effect.reset_counters, Effect.reset_salt] else [])
              ++ post) ∧
        ∀ e ∈ post, e.is_wait = true) := by
  by_cases hN : N = 0
  · left
    have : sniffer_tick cfg N M R env fuel s =
        ⟨{ s with nloop := wrap_int (s.nloop + 1) }, [], Outcome.divByZero⟩ := by
      unfold sniffer_tick
      simp [hN]
    rw [this]
    simp [TickResult.completed]
  · by_cases hC : cfg.wifichancycle = 0
    · left
      have : sniffer_tick cfg N M R env fuel s =
          ⟨rotated N s, [Effect.set_channel (rotated N s).channel], Outcome.divByZero⟩ := by
        unfold sniffer_tick
        simp [hN, hC, rotated]
      rw [this]
      simp [TickResult.completed, Effect.is_reset]
    · by_cases hb : wrap_int (s.nloop + 1) < cycle_threshold cfg
      · left
        rw [sniffer_tick_below cfg N M R env fuel s hN hC hb]
        simp [TickResult.completed, Effect.is_reset]
      · right
        obtain ⟨post, htr, hpost⟩ :=
          sniffer_tick_reached_shape cfg N M R env fuel s hN hC (by omega)
        exact ⟨completed_reached cfg N M R env fuel s hN hC (by omega), _, post, htr, hpost⟩

/-! ## C7: degenerate configurations -/

/-- Entered with `lorawait = 0` and `1 <= MAXLORARETRY`, the wait loop ends
within `MAXLORARETRY` reads, by leaving the loop or by the restart. -/
theorem lora_wait_ends (M : Nat) (busy : Nat → Bool) (hM : 1 ≤ M)
    (hMax : (M : Int) ≤ 2147483647) (fuel : Nat) (s : SnifferState) (hs : s.lorawait = 0)
    (hfuel : M ≤ fuel) :
    (lora_wait M busy fuel 0 s).outcome = Outcome.running ∨
    (lora_wait M busy fuel 0 s).outcome = Outcome.restarted := by
  by_cases hall : ∀ j, j < M → busy j = true
  · exact Or.inr (lora_wait_stuck M busy hM hMax fuel s hs hfuel hall).1
  · left
    have hex : ∃ k : Nat, k < M ∧ busy k = false := by
      by_contra hne
      apply hall
      intro j hj
      by_contra hb
      exact hne ⟨j, hj, by simpa using hb⟩
    have hfirst := Nat.find_spec hex
    have hbefore : ∀ j, j < Nat.find hex → busy j = true := by
      intro j hj
      have hnot := Nat.find_min hex hj
      by_contra hb
      exact hnot ⟨by omega, by simpa using hb⟩
    exact (lora_wait_clears M busy hMax (Nat.find hex) fuel s hs (by omega) (by omega)
      hbefore hfirst.2).1

/-- C7, as amended.  With a channel-hop period other than zero, a channel
count other than zero and `MAXLORARETRY >= 1`, a tick of `sniffer_loop` never
divides by zero and does not stall: it reaches the end of the loop body or ends
in the restart, within `MAXLORARETRY` reads of the busy flag.  A scan-cycle
duration of zero makes the threshold 1, so that every tick (with a tick counter
that is not negative) completes the cycle. -/
theorem sniffer_tick_defined (cfg : configData_t) (N M : Nat) (R : SaltRotation)
    (env : GateEnv) (fuel : Nat) (s : SnifferState) (hN : N ≠ 0)
    (hC : cfg.wifichancycle ≠ 0) (hM : 1 ≤ M) (hMax : (M : Int) ≤ 2147483647)
    (hfuel : M ≤ fuel) :
    ((sniffer_tick cfg N M R env fuel s).outcome = Outcome.running ∨
      (sniffer_tick cfg N M R env fuel s).outcome = Outcome.restarted) ∧
    (cfg.wifiscancycle = 0 → 0 ≤ s.nloop → s.nloop < 2147483647 →
      cycle_threshold cfg = 1 ∧ (sniffer_tick cfg N M R env fuel s).completed = true) := by
  constructor
  · by_cases hb : wrap_int (s.nloop + 1) < cycle_threshold cfg
    · left
      rw [sniffer_tick_below cfg N M R env fuel s hN hC hb]
    · rw [(sniffer_tick_reached cfg N M R env fuel s hN hC (by omega)).1]
      exact lora_wait_ends M env.busy hM hMax fuel _ (gate_entry_fields cfg R _).2.2.1 hfuel
  · intro hS h0 h1
    have hthr : cycle_threshold cfg = 1 := by
      unfold cycle_threshold
      rw [hS]
      have hz : wrap_int (0 * 2) = 0 := by decide
      have ho : wrap_int (0 + 1) = 1 := by decide
      rw [hz, Int.mul_zero]
      have hz2 : wrap_int 0 = 0 := by decide
      rw [hz2, ho]
    refine ⟨hthr, completed_reached cfg N M R env fuel s hN hC ?_⟩
    rw [hthr, wrap_int_of_range _ (by omega) (by omega)]
    omega

/-- C7 as amended, at `wifiscancycle = 0` with a stuck transmitter. -/
theorem sniffer_tick_defined_witness :
    ((sniffer_tick ⟨50, 0, 0⟩ 13 (3 : Nat) nextSalt stuck_env 5 (init_state 5)).outcome
        = Outcome.running ∨
      (sniffer_tick ⟨50, 0, 0⟩ 13 (3 : Nat) nextSalt stuck_env 5 (init_state 5)).outcome
        = Outcome.restarted) ∧
    cycle_threshold ⟨50, 0, 0⟩ = 1 ∧
    (sniffer_tick ⟨50, 0, 0⟩ 13 (3 : Nat) nextSalt stuck_env 5 (init_state 5)).completed
      = true := by
  have h := sniffer_tick_defined ⟨50, 0, 0⟩ 13 3 nextSalt stuck_env 5 (init_state 5)
    (by decide) (by decide) (by decide) (by decide) (by decide)
  exact ⟨h.1, h.2 rfl (by decide) (by decide)⟩

/-- C7 as stated fails: with a channel-hop period of zero the tick divides by
zero in the cycle test, with a channel count of zero it does so in the channel
rotation; neither tick completes a cycle. -/
theorem zero_config_counterexample :
    (sniffer_tick ⟨0, 120, 0⟩ 13 500 nextSalt idle_env 5 (init_state 5)).outcome
      = Outcome.divByZero ∧
    (sniffer_tick ⟨0, 120, 0⟩ 13 500 nextSalt idle_env 5 (init_state 5)).completed = false ∧
    (sniffer_tick ⟨50, 120, 0⟩ 0 500 nextSalt idle_env 5 (init_state 5)).outcome
      = Outcome.divByZero ∧
    (sniffer_tick ⟨50, 120, 0⟩ 0 500 nextSalt idle_env 5 (init_state 5)).completed = false := by
  decide

/-! ## C5: LED selection in `lorawan_loop` -/

/-- C5, what the code does.  One pass of `lorawan_loop` selects: with a
joining or rejoining flag set, `set_LED(COLOR_YELLOW, 20, 200, 5)`; otherwise
with a transmit flag set, `set_LED(COLOR_BLUE, 10, 500, 3)`; otherwise, with
none of the four flags set (and the four flags not all zero), the third
condition is `LMIC.opmode & 0` and so false, and the pass selects
`set_LED(COLOR_NONE, 0, 0, 0)`: blink count 0 and LED off, where
`set_LED(COLOR_RED, 200, 2000, 5)` would give blink count 10 and LED on. -/
theorem lorawan_loop_led_selection (F : OpmodeFlags) (K : Colors) (opmode : Nat)
    (m : LEDMachine) :
    (opmode &&& (F.OP_JOINING ||| F.OP_REJOIN) ≠ 0 →
      lorawan_loop_LED F K opmode m = set_LED K.COLOR_YELLOW 20 200 5 m) ∧
    (opmode &&& (F.OP_JOINING ||| F.OP_REJOIN) = 0 →
      opmode &&& (F.OP_TXDATA ||| F.OP_TXRXPEND) ≠ 0 →
      lorawan_loop_LED F K opmode m = set_LED K.COLOR_BLUE 10 500 3 m) ∧
    (opmode &&& (F.OP_JOINING ||| F.OP_REJOIN) = 0 →
      opmode &&& (F.OP_TXDATA ||| F.OP_TXRXPEND) = 0 →
      (F.OP_TXDATA ||| F.OP_TXRXPEND ||| F.OP_JOINING ||| F.OP_REJOIN) ≠ 0 →
      lorawan_loop_LED F K opmode m = set_LED K.COLOR_NONE 0 0 0 m ∧
      (lorawan_loop_LED F K opmode m).LEDcount = 0 ∧
      (lorawan_loop_LED F K opmode m).LEDState = states.LED_OFF ∧
      (set_LED K.COLOR_RED 200 2000 5 m).LEDcount = 10 ∧
      (set_LED K.COLOR_RED 200 2000 5 m).LEDState = states.LED_ON) := by
  refine ⟨fun hJ => ?_, fun hJ hT => ?_, fun hJ hT hmask => ?_⟩
  · unfold lorawan_loop_LED
    rw [if_pos hJ]
  · unfold lorawan_loop_LED
    rw [if_neg (not_not.mpr hJ), if_pos hT]
  · have hsel : lorawan_loop_LED F K opmode m = set_LED K.COLOR_NONE 0 0 0 m := by
      unfold lorawan_loop_LED
      rw [if_neg (not_not.mpr hJ), if_neg (not_not.mpr hT), if_neg hmask, Nat.and_zero]
      simp
    rw [hsel]
    exact ⟨rfl, rfl, rfl, rfl, rfl⟩

/-- C5 at the idle mode `LMIC.opmode = 0` with the flag values of the LMIC
library: the pass selects `set_LED(COLOR_NONE, 0, 0, 0)`. -/
theorem lorawan_loop_led_selection_witness :
    lorawan_loop_LED lmic_flags sample_colors 0 ⟨0, 0, 0, 0, states.LED_OFF⟩ =
      set_LED sample_colors.COLOR_NONE 0 0 0 ⟨0, 0, 0, 0, states.LED_OFF⟩ ∧
    (lorawan_loop_LED lmic_flags sample_colors 0
      ⟨0, 0, 0, 0, states.LED_OFF⟩).LEDcount = 0 ∧
    (lorawan_loop_LED lmic_flags sample_colors 0
      ⟨0, 0, 0, 0, states.LED_OFF⟩).LEDState = states.LED_OFF ∧
    (set_LED sample_colors.COLOR_RED 200 2000 5
      ⟨0, 0, 0, 0, states.LED_OFF⟩).LEDcount = 10 ∧
    (set_LED sample_colors.COLOR_RED 200 2000 5
      ⟨0, 0, 0, 0, states.LED_OFF⟩).LEDState = states.LED_ON :=
  (lorawan_loop_led_selection lmic_flags sample_colors 0
    ⟨0, 0, 0, 0, states.LED_OFF⟩).2.2 (by decide) (by decide) (by decide)

/-! ## C8: the blink counter of the LED machine -/

/-- C8, what the code does after `set_LED(color, 20, 200, 5)`.  (1) When the
uninitialised `previousLEDState` reads `LED_OFF` on every call, ten passes
within the first on-phase (timestamps 0..9) compute `LED_ON` every time, with
no change of state, and each of them decrements the count: it goes from 10 to 0
without one on/off blink, and the next pass switches the LED off.  (2) With
the same readings, on passes at 0, 100, 0, 100 the changes from on to off
decrement nothing.  (3) When the variable happens to hold what the call before
stored and the LED was lit at `set_LED`, the tenth edge is an on edge, the
forced `LED_OFF` is one more edge and `LEDcount--` takes the `uint8_t` count
from 0 to 255; one pass later the LED is on again with 254 left. -/
theorem led_count_not_edge_driven (m : LEDMachine) (color : Nat) :
    (LED_run [(0, states.LED_OFF), (1, states.LED_OFF), (2, states.LED_OFF),
        (3, states.LED_OFF), (4, states.LED_OFF), (5, states.LED_OFF), (6, states.LED_OFF),
        (7, states.LED_OFF), (8, states.LED_OFF), (9, states.LED_OFF), (10, states.LED_OFF)]
        (set_LED color 20 200 5 m)).map LEDMachine.view =
      [(states.LED_ON, 9), (states.LED_ON, 8), (states.LED_ON, 7), (states.LED_ON, 6),
        (states.LED_ON, 5), (states.LED_ON, 4), (states.LED_ON, 3), (states.LED_ON, 2),
        (states.LED_ON, 1), (states.LED_ON, 0), (states.LED_OFF, 0)] ∧
    (LED_run [(0, states.LED_OFF), (100, states.LED_OFF), (0, states.LED_OFF),
        (100, states.LED_OFF)] (set_LED color 20 200 5 m)).map LEDMachine.view =
      [(states.LED_ON, 9), (states.LED_OFF, 9), (states.LED_ON, 8), (states.LED_OFF, 8)] ∧
    (LED_run [(100, states.LED_ON), (0, states.LED_OFF), (100, states.LED_ON),
        (0, states.LED_OFF), (100, states.LED_ON), (0, states.LED_OFF), (100, states.LED_ON),
        (0, states.LED_OFF), (100, states.LED_ON), (0, states.LED_OFF), (100, states.LED_ON),
        (0, states.LED_OFF)] (set_LED color 20 200 5 m)).map LEDMachine.view =
      [(states.LED_OFF, 9), (states.LED_ON, 8), (states.LED_OFF, 7), (states.LED_ON, 6),
        (states.LED_OFF, 5), (states.LED_ON, 4), (states.LED_OFF, 3), (states.LED_ON, 2),
        (states.LED_OFF, 1), (states.LED_ON, 0), (states.LED_OFF, 255),
        (states.LED_ON, 254)] := by
  refine ⟨?_, ?_, ?_⟩ <;>
    simp [LED_run, LED_tick, switchLED, switchLEDstate, set_LED, LEDMachine.view]

/-! ## C9: the display machine -/

/-- The render decision of a call depends on the timestamp and on the value
read from the uninitialised variable, on nothing else. -/
theorem updateDisplay_rendered (D screenon t p ds : Nat) :
    (updateDisplay D screenon t p ds).rendered =
      decide (D ≤ (t + 4294967296 - p) % 4294967296) := by
  unfold updateDisplay
  split <;> rfl

/-- C9, what the code does.  `previousDisplaymillis` is not kept between
calls: when a call at `t1` rendered and the uninitialised variable reads the
same value `p` (not ahead of the clock) on the next call at `t2 >= t1`, that
call renders as well, however short the time since the first render; for any
value `q` read, the call renders exactly when `(t2 - q) mod 2^32` is at least
`DISPLAYREFRESH_MS`. -/
theorem updateDisplay_renders_again (D screenon1 screenon2 ds p t1 t2 : Nat)
    (hp : p ≤ t1) (h12 : t1 ≤ t2) (ht2 : t2 < 4294967296)
    (h1 : (updateDisplay D screenon1 t1 p ds).rendered = true) :
    (updateDisplay D screenon2 t2 p (updateDisplay D screenon1 t1 p ds).DisplayState).rendered
      = true ∧
    ∀ q : Nat,
      (updateDisplay D screenon2 t2 q (updateDisplay D screenon1 t1 p ds).DisplayState).rendered
        = decide (D ≤ (t2 + 4294967296 - q) % 4294967296) := by
  rw [updateDisplay_rendered] at h1
  have hD : D ≤ (t1 + 4294967296 - p) % 4294967296 := by simpa using h1
  refine ⟨?_, fun q => updateDisplay_rendered D screenon2 t2 q _⟩
  rw [updateDisplay_rendered]
  simp only [decide_eq_true_eq]
  omega

/-- C9 with a refresh interval of 40 ms, the variable reading 0 on both calls:
the calls at 40 and 41 are 1 ms apart and both render. -/
theorem updateDisplay_renders_again_witness :
    (updateDisplay 40 1 40 0 1).rendered = true ∧ 41 - 40 < 40 ∧
    (updateDisplay 40 1 41 0 (updateDisplay 40 1 40 0 1).DisplayState).rendered = true :=
  ⟨by decide, by decide,
    (updateDisplay_renders_again 40 1 1 1 0 40 41 (by decide) (by decide) (by decide)
      (by decide)).1⟩

/-! ## C11: the 64-bit uptime counter -/

/-- One call of `uptime()` on 32-bit values: `low32` becomes the reading,
`high32` goes up by one (modulo `2^32`) exactly when the reading is below the
previous one, and the result is `high32 * 2^32 + reading`. -/
theorem uptime_step (r : Nat) (st : UptimeState) (hr : r < 4294967296)
    (hh : st.high32 < 4294967296) :
    (uptime r st).1.low32 = r ∧
    (uptime r st).1.high32 = (st.high32 + (if r < st.low32 then 1 else 0)) % 4294967296 ∧
    (uptime r st).2 = (uptime r st).1.high32 * 4294967296 + r := by
  have hmod : r % 4294967296 = r := Nat.mod_eq_of_lt hr
  have hhigh : (uptime r st).1.high32
      = (st.high32 + (if r < st.low32 then 1 else 0)) % 4294967296 := by
    show (if r % 4294967296 < st.low32 then (st.high32 + 1) % 4294967296 else st.high32)
      = (st.high32 + (if r < st.low32 then 1 else 0)) % 4294967296
    rw [hmod]
    split
    · rfl
    · rw [Nat.add_zero, Nat.mod_eq_of_lt hh]
  have hlt : (uptime r st).1.high32 < 4294967296 := by
    rw [hhigh]; exact Nat.mod_lt _ (by decide)
  refine ⟨hmod, hhigh, ?_⟩
  show (((uptime r st).1.high32 <<< 32) % 18446744073709551616) ||| (r % 4294967296)
    = (uptime r st).1.high32 * 4294967296 + r
  rw [hmod, Nat.shiftLeft_eq]
  have h32 : (2 : Nat) ^ 32 = 4294967296 := by norm_num
  rw [h32, Nat.mod_eq_of_lt (by omega)]
  have hor := Nat.mul_add_lt_is_or (i := 32) (b := r) (by rw [h32]; exact hr)
    (uptime r st).1.high32
  rw [h32] at hor
  rw [Nat.mul_comm, ← hor]

/-- The result of call number `k + 1` in a sequence of calls. -/
theorem uptime_calls_value :
    ∀ (rs : List Nat) (st : UptimeState), (∀ r ∈ rs, r < 4294967296) →
      st.high32 < 4294967296 →
      ∀ (k r : Nat), rs[k]? = some r →
        (uptime_calls rs st)[k]? =
          some (((st.high32 + descents st.low32 (rs.take (k + 1))) % 4294967296)
            * 4294967296 + r) := by
  intro rs
  induction rs with
  | nil => intro st _ _ k r h; simp at h
  | cons r0 rs ih =>
    intro st hrs hh k r hk
    have hr0 : r0 < 4294967296 := hrs r0 (List.mem_cons_self _ _)
    obtain ⟨hlow, hhigh, hval⟩ := uptime_step r0 st hr0 hh
    cases k with
    | zero =>
      simp only [List.getElem?_cons_zero, Option.some.injEq] at hk
      subst hk
      simp only [uptime_calls, List.getElem?_cons_zero, Option.some.injEq]
      rw [hval, hhigh]
      simp [descents]
    | succ k =>
      simp only [List.getElem?_cons_succ] at hk
      have hlt : (uptime r0 st).1.high32 < 4294967296 := by
        rw [hhigh]; exact Nat.mod_lt _ (by decide)
      have := ih (uptime r0 st).1 (fun x hx => hrs x (List.mem_cons_of_mem _ hx)) hlt k r hk
      simp only [uptime_calls, List.getElem?_cons_succ]
      rw [this, hlow, hhigh]
      simp only [List.take_succ_cons, descents]
      rw [Nat.mod_add_mod, Nat.add_assoc]

/-- While `high32` does not overflow, each result is at most the next one, and
smaller than the next one when the reading went down. -/
theorem uptime_calls_mono :
    ∀ (rs : List Nat) (st : UptimeState), (∀ r ∈ rs, r < 4294967296) →
      st.high32 + descents st.low32 rs < 4294967296 →
      ∀ (k u v : Nat), (uptime_calls rs st)[k]? = some u →
        (uptime_calls rs st)[k + 1]? = some v →
        u ≤ v ∧ ∀ a b : Nat, rs[k]? = some a → rs[k + 1]? = some b → b < a → u < v := by
  intro rs
  induction rs with
  | nil => intro st _ _ k u v h; simp [uptime_calls] at h
  | cons r0 rs ih =>
    intro st hrs hd k u v hu hv
    have hr0 : r0 < 4294967296 := hrs r0 (List.mem_cons_self _ _)
    have hd0 : st.high32 + ((if r0 < st.low32 then 1 else 0) + descents r0 rs)
        < 4294967296 := hd
    have hh : st.high32 < 4294967296 := by omega
    obtain ⟨hlow, hhigh, hval⟩ := uptime_step r0 st hr0 hh
    have hhigh2 : (uptime r0 st).1.high32 = st.high32 + (if r0 < st.low32 then 1 else 0) := by
      rw [hhigh]; exact Nat.mod_eq_of_lt (by omega)
    cases k with
    | succ k =>
      simp only [uptime_calls, List.getElem?_cons_succ] at hu hv
      have := ih (uptime r0 st).1 (fun x hx => hrs x (List.mem_cons_of_mem _ hx))
        (by rw [hlow, hhigh2]; omega) k u v hu hv
      simpa only [List.getElem?_cons_succ] using this
    | zero =>
      cases rs with
      | nil => simp [uptime_calls] at hv
      | cons r1 rs =>
        have hr1 : r1 < 4294967296 :=
          hrs r1 (List.mem_cons_of_mem _ (List.mem_cons_self _ _))
        have hd1 : st.high32 + ((if r0 < st.low32 then 1 else 0) +
            ((if r1 < r0 then 1 else 0) + descents r1 rs)) < 4294967296 := hd
        have hh1 : (uptime r0 st).1.high32 < 4294967296 := by rw [hhigh2]; omega
        obtain ⟨_, hhigh1, hval1⟩ := uptime_step r1 (uptime r0 st).1 hr1 hh1
        rw [hlow] at hhigh1
        have hhigh3 : (uptime r1 (uptime r0 st).1).1.high32
            = (uptime r0 st).1.high32 + (if r1 < r0 then 1 else 0) := by
          rw [hhigh1]; exact Nat.mod_eq_of_lt (by rw [hhigh2]; omega)
        simp only [uptime_calls, List.getElem?_cons_zero, List.getElem?_cons_succ,
          Option.some.injEq] at hu hv
        rw [hval] at hu
        rw [hval1, hhigh3] at hv
        subst hu hv
        constructor
        · split <;> omega
        · intro a b ha hb hba
          simp only [List.getElem?_cons_zero, List.getElem?_cons_succ,
            Option.some.injEq] at ha hb
          subst ha hb
          rw [if_pos hba]
          omega

theorem uptime_calls_length :
    ∀ (rs : List Nat) (st : UptimeState), (uptime_calls rs st).length = rs.length := by
  intro rs
  induction rs with
  | nil => intro st; rfl
  | cons r rs ih => intro st; simp [uptime_calls, ih]

/-- C11. For every sequence of 32-bit `millis()` readings, starting from the
zeroed static variables: every reading gets a result; call number `k + 1`
returns `high * 2^32 + reading`, where `high` is the number (modulo `2^32`) of
readings so far that were strictly smaller than the reading before them; and as
long as `high` has not overflowed 32 bits, each result is at most the next one,
and strictly smaller than the next one when the 32-bit clock wrapped between
the two calls. -/
theorem uptime_extends_clock (rs : List Nat) (hrs : ∀ r ∈ rs, r < 4294967296) :
    (uptime_calls rs ⟨0, 0⟩).length = rs.length ∧
    (∀ (k r : Nat), rs[k]? = some r →
      (uptime_calls rs ⟨0, 0⟩)[k]? =
        some ((descents 0 (rs.take (k + 1)) % 4294967296) * 4294967296 + r)) ∧
    (descents 0 rs < 4294967296 →
      ∀ (k u v : Nat), (uptime_calls rs ⟨0, 0⟩)[k]? = some u →
        (uptime_calls rs ⟨0, 0⟩)[k + 1]? = some v →
        u ≤ v ∧ ∀ a b : Nat, rs[k]? = some a → rs[k + 1]? = some b → b < a → u < v) := by
  refine ⟨uptime_calls_length rs _, fun k r hk => ?_, fun hd => ?_⟩
  · have := uptime_calls_value rs ⟨0, 0⟩ hrs (by decide) k r hk
    simpa using this
  · exact uptime_calls_mono rs ⟨0, 0⟩ hrs (by simpa using hd)

/-- C11 on the readings 5, 4294967295, 3, 10: the clock wraps once, between
the second and the third call. -/
theorem uptime_extends_clock_witness :
    uptime_calls [5, 4294967295, 3, 10] ⟨0, 0⟩ = [5, 4294967295, 4294967299, 4294967306] ∧
    (uptime_calls [5, 4294967295, 3, 10] ⟨0, 0⟩).length = [5, 4294967295, 3, 10].length ∧
    (∀ (k r : Nat), [5, 4294967295, 3, 10][k]? = some r →
      (uptime_calls [5, 4294967295, 3, 10] ⟨0, 0⟩)[k]? =
        some ((descents 0 ([5, 4294967295, 3, 10].take (k + 1)) % 4294967296)
          * 4294967296 + r)) ∧
    (∀ (k u v : Nat), (uptime_calls [5, 4294967295, 3, 10] ⟨0, 0⟩)[k]? = some u →
      (uptime_calls [5, 4294967295, 3, 10] ⟨0, 0⟩)[k + 1]? = some v →
      u ≤ v ∧ ∀ a b : Nat, [5, 4294967295, 3, 10][k]? = some a →
        [5, 4294967295, 3, 10][k + 1]? = some b → b < a → u < v) := by
  have h := uptime_extends_clock [5, 4294967295, 3, 10] (by decide)
  exact ⟨by decide, h.1, h.2.1, h.2.2 (by decide)⟩

end Paxcounter
